import Mathlib

/-!
# gcp-cloud-trace-otel: a shallow embedding and its checked properties

The development follows the repository's packages:

* `internal/types`  : `TimeStamp`, `Span`, `Trace`
* `pkg/config`      : `GetConfig`
* `pkg/cloudtrace`  : `convertSpans`, `FetchTraces`, `GetRootSpans`
* `pkg/otel`        : `ConvertToOTLPSpan`
* `cmd/...`         : `main`, `fetchAndProcessTraces`

Library calls the repository makes (`os.Getenv`, `strconv`, `fmt.Sprintf`,
`time.Unix`, the OpenTelemetry identifier parsers and SDK span) are embedded
next to their callers, each with the behaviour its Go documentation and
source give it.
-/

namespace GcpCloudTraceOtel

/-! ## Machine integers -/

/-- Two's-complement reading of an integer in a signed word of `w + 1` bits. -/
def wrapSigned (w : Nat) (x : Int) : Int :=
  (x + 2 ^ w) % 2 ^ (w + 1) - 2 ^ w

/-- Go conversion `int64(x)` / the result of an `int64` operation. -/
def wrap64 (x : Int) : Int := wrapSigned 63 x

/-- Go conversion `int32(x)`. -/
def wrap32 (x : Int) : Int := wrapSigned 31 x

deriving instance DecidableEq for Except

/-! ## internal/types -/

/-- Go `types.TimeStamp`: both fields are `int64`. -/
structure TimeStamp where
  Seconds : Int
  Nanos : Int
deriving DecidableEq, Repr

/-- Go `types.Span`.  `ParentSpanID *uint64` is `none` for the nil pointer;
`Labels map[string]string` is an association list read with `List.lookup`. -/
structure Span where
  SpanID : Nat
  Name : String
  StartTime : TimeStamp
  EndTime : TimeStamp
  ParentSpanID : Option Nat
  Labels : List (String × String)
deriving DecidableEq, Repr

/-- Go `types.Trace`. -/
structure Trace where
  ProjectID : String
  TraceID : String
  Spans : List Span
deriving DecidableEq, Repr

/-! ## pkg/config -/

/-- The process environment: a variable is unset (`none`) or has a value. -/
abbrev Env := String → Option String

/-- Go `os.Getenv`: the value, or the empty string when the variable is unset. -/
def Getenv (env : Env) (key : String) : String := (env key).getD ""

/-- Go `time.Second` as a `time.Duration` (nanoseconds). -/
def timeSecond : Int := 1000000000

/-- Constant `config.DefaultPollInterval = 10 * time.Second`. -/
def DefaultPollInterval : Int := 10 * timeSecond
/-- Constant `config.DefaultGetTraceRateLimit`. -/
def DefaultGetTraceRateLimit : Int := 1
/-- Constant `config.DefaultListTracesRateLimit`. -/
def DefaultListTracesRateLimit : Int := 1
/-- Constant `config.DefaultTracePageSize` (declared, not read by `GetConfig`). -/
def DefaultTracePageSize : Int := 1

/-- Go `strconv.Itoa`: decimal text of an `int`. -/
def Itoa (i : Int) : String :=
  if i < 0 then "-" ++ Nat.repr i.natAbs else Nat.repr i.toNat

/-- How `strconv.ParseUint` ends: malformed text, a value out of range, or
the value. -/
inductive Parsed where
  | malformed
  | outOfRange
  | value (n : Nat)
deriving DecidableEq, Repr

/-- The loop of `strconv.ParseUint(s, 10, 64)` over the characters of `s`,
`n` being the number read so far.  A character that is no digit ends the loop
as malformed; a digit that would take the number past `2^64 - 1` ends it as
out of range, before any later character is looked at. -/
def parseUintLoop : List Char → Nat → Parsed
  | [], n => .value n
  | c :: cs, n =>
    if 48 ≤ c.toNat ∧ c.toNat ≤ 57 then
      if n ≥ 1844674407370955162 then .outOfRange
      else
        let n1 := n * 10 + (c.toNat - 48)
        if n1 > 2 ^ 64 - 1 then .outOfRange else parseUintLoop cs n1
    else .malformed

/-- Go `strconv.ParseUint(s, 10, 64)`: the empty string is malformed. -/
def ParseUint (cs : List Char) : Parsed :=
  match cs with
  | [] => .malformed
  | _ => parseUintLoop cs 0

/-- Go `strconv.Atoi` on a 64-bit platform, as the pair (value, failed): an
optional sign, then `ParseUint`.  Malformed text gives value 0; a value out
of range gives the nearest `int`. -/
def Atoi (s : String) : Int × Bool :=
  let body : Bool × List Char :=
    match s.data with
    | '-' :: rest => (true, rest)
    | '+' :: rest => (false, rest)
    | cs => (false, cs)
  match ParseUint body.2 with
  | .malformed => (0, true)
  | .outOfRange => if body.1 then (-(2 ^ 63 : Int), true) else ((2 ^ 63 : Int) - 1, true)
  | .value un =>
    if body.1 then
      if un > 2 ^ 63 then (-(2 ^ 63 : Int), true) else (-(un : Int), false)
    else
      if un ≥ 2 ^ 63 then ((2 ^ 63 : Int) - 1, true) else ((un : Int), false)

/-- Go `config.Config`.  `PollInterval` is a `time.Duration` in nanoseconds. -/
structure Config where
  PollInterval : Int
  ProjectID : String
  GetTraceRateLimit : Int
  ListTracesRateLimit : Int
  TracePageSize : Int
deriving DecidableEq, Repr

/-- Go `config.GetConfig`, reading the environment `env`. -/
def GetConfig (env : Env) : Except String Config :=
  let getTraceRateLimitStr := Getenv env "GET_TRACE_RATE_LIMIT"
  let getTraceRateLimitStr :=
    if getTraceRateLimitStr = "" then Itoa DefaultGetTraceRateLimit else getTraceRateLimitStr
  let getTraceRateLimit := (Atoi getTraceRateLimitStr).1
  let listTracesRateLimitStr := Getenv env "LIST_TRACES_RATE_LIMIT"
  let listTracesRateLimitStr :=
    if listTracesRateLimitStr = "" then Itoa DefaultListTracesRateLimit else listTracesRateLimitStr
  let listTracesRateLimit := (Atoi listTracesRateLimitStr).1
  let tracePageSizeStr := Getenv env "TRACE_PAGE_SIZE"
  let tracePageSizeStr :=
    if tracePageSizeStr = "" then Itoa DefaultListTracesRateLimit else tracePageSizeStr
  let tracePageSizeLimit := (Atoi tracePageSizeStr).1
  let projectID := Getenv env "PROJECT_ID"
  if projectID = "" then
    .error "variable PROJECT_ID is not set. It is a mandatory configuration"
  else
    .ok {
      ProjectID := projectID
      PollInterval := DefaultPollInterval
      ListTracesRateLimit := listTracesRateLimit
      GetTraceRateLimit := getTraceRateLimit
      TracePageSize := wrap32 tracePageSizeLimit }

/-- Constant `defaultPollInterval = 60 * time.Second` of package `main`. -/
def defaultPollInterval : Int := 60 * timeSecond

/-- The interval `main` hands to `time.NewTicker`: `cfg.PollInterval`, replaced
by `defaultPollInterval` when it is zero. -/
def mainPollInterval (cfg : Config) : Int :=
  if cfg.PollInterval = 0 then defaultPollInterval else cfg.PollInterval

/-- Whether `main` takes its own fallback branch. -/
def mainUsesFallback (cfg : Config) : Bool := decide (cfg.PollInterval = 0)

/-! ## pkg/cloudtrace -/

/-- Go `timestamppb.Timestamp`: `Seconds int64`, `Nanos int32`. -/
structure Timestamp where
  Seconds : Int
  Nanos : Int
deriving DecidableEq, Repr

/-- Go `tracepb.TraceSpan`, the fields `convertSpans` reads.  `StartTime` and
`EndTime` are pointers `*timestamppb.Timestamp`: `none` is the nil pointer of
a record that came without the field. -/
structure TraceSpan where
  SpanId : Nat
  Name : String
  StartTime : Option Timestamp
  EndTime : Option Timestamp
  ParentSpanId : Nat
  Labels : List (String × String)
deriving DecidableEq, Repr

/-- Go `tracepb.Trace`. -/
structure TraceProto where
  ProjectId : String
  TraceId : String
  Spans : List TraceSpan
deriving DecidableEq, Repr

/-- One iteration of the loop of `convertSpans`: the body-local copy
`parentSpanID` has its address taken only when it is not zero.  The fields
`spanProto.StartTime.Seconds` and `spanProto.EndTime.Seconds` are read
through the pointers without a nil test: `none` is the run-time panic of a
nil dereference. -/
def convertSpan (spanProto : TraceSpan) : Option Span :=
  let parentSpanID := spanProto.ParentSpanId
  let parentSpanIDPtr : Option Nat := if parentSpanID ≠ 0 then some parentSpanID else none
  match spanProto.StartTime, spanProto.EndTime with
  | some startTime, some endTime =>
    some
      { SpanID := spanProto.SpanId
        Name := spanProto.Name
        StartTime := { Seconds := startTime.Seconds, Nanos := startTime.Nanos }
        EndTime := { Seconds := endTime.Seconds, Nanos := endTime.Nanos }
        ParentSpanID := parentSpanIDPtr
        Labels := spanProto.Labels }
  | _, _ => none

/-- Go `convertSpans`: `spans[i]` is the decoding of `spanProtos[i]`; `none`
when an iteration panics. -/
def convertSpans : List TraceSpan → Option (List Span)
  | [] => some []
  | spanProto :: rest =>
    match convertSpan spanProto with
    | none => none
    | some span =>
      match convertSpans rest with
      | none => none
      | some spans => some (span :: spans)

/-- A record that carries both timestamps. -/
def TraceSpan.hasTimes (p : TraceSpan) : Bool := p.StartTime.isSome && p.EndTime.isSome

/-- How a `for ... range` loop binds its variable.  Up to Go 1.21 (`go`
directive of the module below 1.22) the loop has ONE variable, assigned anew
in each iteration; from Go 1.22 on each iteration has a variable of its own.
The directive decides, and the embedding takes the binding as a parameter.
The repository is written for the first: `convertSpans` copies into a
body-local variable before taking an address, and `fetchAndProcessTraces`
hands the loop variable to its goroutine as an argument. -/
inductive LoopVar where
  | perLoop
  | perIteration
deriving DecidableEq, Repr

/-- How the trace iterator ends: `iterator.Done`, or a backend error. -/
inductive IterEnd where
  | done
  | backendError (msg : String)
deriving DecidableEq, Repr

/-- The backend enumeration behind `client.ListTraces`: the traces successive
`Next` calls return, then the error every further call returns. -/
structure TraceIterator where
  items : List TraceProto
  final : IterEnd
deriving DecidableEq, Repr

/-- Go `TraceIterator.Next`: the next trace or the final error, and the
iterator afterwards. -/
def TraceIterator.Next (it : TraceIterator) : Except IterEnd TraceProto × TraceIterator :=
  match it.items with
  | [] => (.error it.final, it)
  | t :: rest => (.ok t, { it with items := rest })

/-- The composite literal `&types.Trace{...}` that `FetchTraces` and
`GetRootSpans` build from a backend trace; `none` when `convertSpans`
panics. -/
def traceOfProto (traceProto : TraceProto) : Option Trace :=
  match convertSpans traceProto.Spans with
  | none => none
  | some spans =>
    some
      { ProjectID := traceProto.ProjectId
        TraceID := traceProto.TraceId
        Spans := spans }

/-- The `for` loop of `FetchTraces` over the results of `Next`: the first
error of `Next`, whatever it is, breaks out of the loop; a trace is decoded
and appended to `fetchedTraces`.  `none` is a panic inside the loop.
(`fetchLoop_unroll` states one turn of the loop in terms of `Next`.) -/
def fetchLoop : List TraceProto → IterEnd → List Trace → Option (List Trace)
  | [], _, fetchedTraces => some fetchedTraces
  | traceProto :: rest, final, fetchedTraces =>
    match traceOfProto traceProto with
    | none => none
    | some traceData => fetchLoop rest final (fetchedTraces ++ [traceData])

/-- Go `FetchTraces`.  `limiter` is the result of `listTracesLimiter.Wait`;
`it` is the enumeration `client.ListTraces` returns.  `none` is a panic,
`some` what the function returns. -/
def FetchTraces (limiter : Except String Unit) (it : TraceIterator) :
    Option (Except String (List Trace)) :=
  match limiter with
  | .error err => some (.error ("rate limit error: " ++ err))
  | .ok _ =>
    match fetchLoop it.items it.final [] with
    | none => none
    | some fetchedTraces => some (.ok fetchedTraces)

/-- The heap cells that hold the `span` variable(s) of the loop of
`GetRootSpans`, and the slice `rootSpans` of pointers into them.  A pointer is
the index of its cell. -/
structure RootSpans where
  store : List Span
  rootSpans : List Nat
deriving DecidableEq, Repr

/-- One iteration of `for _, span := range traceData.Spans`: bind `span` to
the element, then append `&span` when the span has no parent. -/
def rootLoopStep (lv : LoopVar) (st : RootSpans) (elem : Span) : RootSpans :=
  let bound : Nat × List Span :=
    match lv with
    | .perIteration => (st.store.length, st.store ++ [elem])
    | .perLoop =>
      match st.store with
      | [] => (0, [elem])
      | _ :: _ => (0, st.store.set 0 elem)
  let span := elem
  if span.ParentSpanID = none then
    { store := bound.2, rootSpans := st.rootSpans ++ [bound.1] }
  else
    { store := bound.2, rootSpans := st.rootSpans }

/-- The loop of `GetRootSpans` over `traceData.Spans`. -/
def rootLoop (lv : LoopVar) (spans : List Span) : RootSpans :=
  spans.foldl (rootLoopStep lv) { store := [], rootSpans := [] }

/-- Go `GetRootSpans`.  `limiter` is the result of `getTraceLimiter.Wait`;
`resp` the result of `client.GetTrace`.  `none` is a panic, `some` what the
function returns. -/
def GetRootSpans (lv : LoopVar) (limiter : Except String Unit)
    (resp : Except String TraceProto) : Option (Except String RootSpans) :=
  match limiter with
  | .error err => some (.error ("rate limit error: " ++ err))
  | .ok _ =>
    match resp with
    | .error err => some (.error err)
    | .ok traceResp =>
      match traceOfProto traceResp with
      | none => none
      | some traceData => some (.ok (rootLoop lv traceData.Spans))

/-- The spans a caller reads through the returned pointers. -/
def RootSpans.values (r : RootSpans) : List Span :=
  r.rootSpans.filterMap (fun p => r.store[p]?)

/-- A backend record with the given identifier and parent. -/
def sampleRecord (id parent : Nat) (name : String) : TraceSpan :=
  { SpanId := id, Name := name, StartTime := some ⟨100, 0⟩, EndTime := some ⟨100, 500000000⟩,
    ParentSpanId := parent, Labels := [] }

/-! ## pkg/otel: identifiers -/

/-- Go `fmt.Sprintf("%016x", u)` for a `uint64`: the lowercase hexadecimal
digits of `u`, padded on the left with zeros to a width of 16. -/
def sprintfHex016 (u : Nat) : String :=
  let digits := Nat.toDigits 16 u
  String.mk (List.replicate (16 - digits.length) '0' ++ digits)

/-- Go `fmt.Sprintf("%d", u)` for a `uint64`. -/
def sprintfDec (u : Nat) : String := Nat.repr u

/-- The rune test of the OpenTelemetry `decodeHex`: `a`..`f` or `0`..`9`. -/
def isLowerHexRune (r : Char) : Bool :=
  (97 ≤ r.toNat ∧ r.toNat ≤ 102) ∨ (48 ≤ r.toNat ∧ r.toNat ≤ 57)

/-- Go `encoding/hex` `fromHexChar`. -/
def fromHexChar (c : Char) : Option Nat :=
  if 48 ≤ c.toNat ∧ c.toNat ≤ 57 then some (c.toNat - 48)
  else if 97 ≤ c.toNat ∧ c.toNat ≤ 102 then some (c.toNat - 97 + 10)
  else if 65 ≤ c.toNat ∧ c.toNat ≤ 70 then some (c.toNat - 65 + 10)
  else none

/-- Go `hex.DecodeString`: one byte for each pair of digits; an odd length or
a character that is no hexadecimal digit is an error. -/
def hexDecodeString : List Char → Option (List Nat)
  | [] => some []
  | [_] => none
  | a :: b :: rest =>
    match fromHexChar a, fromHexChar b, hexDecodeString rest with
    | some hi, some lo, some tl => some ((hi * 16 + lo) :: tl)
    | _, _, _ => none

/-- Go `copy(b, decoded)` into a zeroed array of `n` bytes. -/
def copyInto (n : Nat) (decoded : List Nat) : List Nat :=
  decoded.take n ++ List.replicate (n - decoded.length) 0

/-- OpenTelemetry `decodeHex(h, b)` for an array `b` of `n` bytes. -/
def decodeHex (h : String) (n : Nat) : Except String (List Nat) :=
  if h.data.all isLowerHexRune then
    match hexDecodeString h.data with
    | some decoded => .ok (copyInto n decoded)
    | none => .error "encoding/hex: invalid string"
  else
    .error "trace-id and span-id can only contain [0-9a-f] characters, all lowercase"

/-- OpenTelemetry `SpanID.IsValid` / `TraceID.IsValid`: some byte is not zero. -/
def idIsValid (b : List Nat) : Bool := b.any (fun x => x ≠ 0)

/-- OpenTelemetry `trace.SpanIDFromHex`: 16 lowercase hexadecimal digits, not
all zero, as 8 bytes. -/
def SpanIDFromHex (h : String) : Except String (List Nat) :=
  if h.utf8ByteSize ≠ 16 then
    .error "hex encoded span-id must have length equals to 16"
  else
    match decodeHex h 8 with
    | .error err => .error err
    | .ok s => if ¬ idIsValid s then .error "span-id can't be all zero" else .ok s

/-- OpenTelemetry `trace.TraceIDFromHex`: 32 lowercase hexadecimal digits, not
all zero, as 16 bytes. -/
def TraceIDFromHex (h : String) : Except String (List Nat) :=
  if h.utf8ByteSize ≠ 32 then
    .error "hex encoded trace-id must have length equals to 32"
  else
    match decodeHex h 16 with
    | .error err => .error err
    | .ok t => if ¬ idIsValid t then .error "trace-id can't be all zero" else .ok t

/-- The number a byte string denotes, most significant byte first. -/
def bigEndian (bytes : List Nat) : Nat :=
  bytes.foldl (fun acc b => acc * 256 + b) 0

/-- The 8 bytes of a `uint64`, most significant first. -/
def bigEndianBytes8 (u : Nat) : List Nat :=
  (List.range 8).map (fun i => u / 256 ^ (7 - i) % 256)

/-! ## pkg/otel: time -/

/-- Go `time.Time` without its location: `sec` is the `int64` count of seconds
since January 1 of year 1, `nsec` the nanoseconds within the second. -/
structure Time where
  sec : Int
  nsec : Int
deriving DecidableEq, Repr

/-- Go `unixToInternal`: seconds from year 1 to the Unix epoch. -/
def unixToInternal : Int := 62135596800

/-- Go `time.Unix(sec, nsec)`.  The additions to `sec` are `int64` additions;
the operations on `nsec` cannot overflow for an `int64` argument. -/
def timeUnix (sec nsec : Int) : Time :=
  let norm : Int × Int :=
    if nsec < 0 ∨ nsec ≥ 1000000000 then
      let n := Int.tdiv nsec 1000000000
      let sec := wrap64 (sec + n)
      let nsec := nsec - n * 1000000000
      if nsec < 0 then (wrap64 (sec - 1), nsec + 1000000000) else (sec, nsec)
    else (sec, nsec)
  { sec := wrap64 (norm.1 + unixToInternal), nsec := norm.2 }

/-- Go `Time.IsZero`: the instant January 1, year 1, 00:00:00 UTC. -/
def Time.IsZero (t : Time) : Bool := t.sec = 0 ∧ t.nsec = 0

/-- Go `internalToUnix`, the negation of `unixToInternal`. -/
def internalToUnix : Int := -unixToInternal

/-- Go `Time.Unix()`: the seconds since the Unix epoch, an `int64` sum. -/
def Time.Unix (t : Time) : Int := wrap64 (t.sec + internalToUnix)

/-- Go `Time.Nanosecond()`: the nanoseconds within the second. -/
def Time.Nanosecond (t : Time) : Int := t.nsec

/-- The range of `int64`. -/
def isInt64 (x : Int) : Prop := -(2 ^ 63 : Int) ≤ x ∧ x < 2 ^ 63

instance (x : Int) : Decidable (isInt64 x) := by unfold isInt64; infer_instance

/-! ## pkg/otel: the SDK span -/

/-- OpenTelemetry `trace.SpanContext`. -/
structure SpanContext where
  TraceID : List Nat
  SpanID : List Nat
  TraceFlags : Nat
  Remote : Bool
deriving DecidableEq, Repr

/-- OpenTelemetry `trace.FlagsSampled`. -/
def FlagsSampled : Nat := 1

/-- The SDK span (`recordingSpan`): its parent context, its own identifiers,
name, times and attributes.  The zero `endTime` marks a span that has not
ended. -/
structure SdkSpan where
  parent : SpanContext
  TraceID : List Nat
  SpanID : List Nat
  name : String
  startTime : Time
  endTime : Time
  attributes : List (String × String)
deriving DecidableEq, Repr

/-- What the SDK may read from the clocks for one span: `now`, the
`time.Now()` of `tracer.Start`, and `monotonicEndTime start`, the value
`start.Add(time.Since(start))` that `End` computes from the start time of the
span (the time of the call, or a saturated sum when the start lies more than
about 292 years from it). -/
structure WallClock where
  now : Time
  monotonicEndTime : Time → Time

/-- SDK `tracer.Start` under a context that carries the valid, sampled remote
span context `psc`, with option `WithTimestamp(ts)`: the new span is a child
of `psc`; it inherits the trace identifier, gets its span identifier
`newSpanID` from the identifier generator, and starts at `ts`, or at
`time.Now()` when `ts` is the zero time. -/
def tracerStart (clock : WallClock) (newSpanID : List Nat) (psc : SpanContext)
    (name : String) (ts : Time) : SdkSpan :=
  { parent := psc
    TraceID := psc.TraceID
    SpanID := newSpanID
    name := name
    startTime := if ts.IsZero then clock.now else ts
    endTime := { sec := 0, nsec := 0 }
    attributes := [] }

/-- SDK `IsRecording`: the span has not ended. -/
def SdkSpan.IsRecording (s : SdkSpan) : Bool := s.endTime.IsZero

/-- SDK `span.End(WithTimestamp(ts))`: nothing for a span that has ended;
otherwise the end time is `ts`, or `monotonicEndTime(s.startTime)` when `ts`
is the zero time, and a snapshot of the span goes to the span processors.
The result is the span afterwards and the snapshots handed over. -/
def SdkSpan.End (clock : WallClock) (s : SdkSpan) (ts : Time) : SdkSpan × List SdkSpan :=
  if ¬ s.IsRecording then (s, [])
  else
    let et := clock.monotonicEndTime s.startTime
    let ended := { s with endTime := if ts.IsZero then et else ts }
    (ended, [ended])

/-- SDK `span.SetAttributes(attribute.String(key, value))`: nothing for a
span that has ended (updates after `End` are not allowed); otherwise the
attribute is set, replacing an earlier value of the key. -/
def SdkSpan.SetAttributes (s : SdkSpan) (key value : String) : SdkSpan :=
  if ¬ s.IsRecording then s
  else { s with attributes := s.attributes.filter (fun kv => kv.1 ≠ key) ++ [(key, value)] }

/-- What one call of `ConvertToOTLPSpan` does: it logs an identifier error and
returns, or it starts and ends a span. `emitted` are the snapshots handed to
the exporter pipeline, `final` the span object when the function returns. -/
inductive ConvertOutcome where
  | traceIDError (err : String)
  | spanIDError (err : String)
  | converted (emitted : List SdkSpan) (final : SdkSpan)
deriving DecidableEq, Repr

/-- The spans a conversion hands to the exporter pipeline. -/
def ConvertOutcome.emitted : ConvertOutcome → List SdkSpan
  | .converted emitted _ => emitted
  | _ => []

/-- The closing `if` / `else if` chain of `ConvertToOTLPSpan` on the span
object `span`: the first of the three labels that is present is passed to
`span.SetAttributes` under the key `service.name`. -/
def setServiceName (span : SdkSpan) (labels : List (String × String)) : SdkSpan :=
  match labels.lookup "service.name" with
  | some serviceName => span.SetAttributes "service.name" serviceName
  | none =>
    match labels.lookup "g.co/gae/app/module" with
    | some serviceName => span.SetAttributes "service.name" serviceName
    | none =>
      match labels.lookup "g.co/r/generic_task/job" with
      | some serviceName => span.SetAttributes "service.name" serviceName
      | none => span

/-- Go `ConvertToOTLPSpan`.  `clock` and `newSpanID` are what the SDK reads
from `time.Now()` and from its identifier generator. -/
def ConvertToOTLPSpan (clock : WallClock) (newSpanID : List Nat)
    (gctTrace : Trace) (gctSpan : Span) : ConvertOutcome :=
  let start := timeUnix gctSpan.StartTime.Seconds gctSpan.StartTime.Nanos
  let endT := timeUnix gctSpan.EndTime.Seconds gctSpan.EndTime.Nanos
  match TraceIDFromHex gctTrace.TraceID with
  | .error err => .traceIDError err
  | .ok traceID =>
    match SpanIDFromHex (sprintfHex016 gctSpan.SpanID) with
    | .error err => .spanIDError err
    | .ok spanID =>
      let sc : SpanContext :=
        { TraceID := traceID, SpanID := spanID, TraceFlags := FlagsSampled, Remote := true }
      let span := tracerStart clock newSpanID sc gctSpan.Name start
      let ended := span.End clock endT
      let span := ended.1
      let span :=
        match gctSpan.ParentSpanID with
        | some parent => span.SetAttributes "gct.parentSpanId" (sprintfDec parent)
        | none => span
      let span := setServiceName span gctSpan.Labels
      .converted ended.2 span

/-- The span of the scenario: id 42, name `handler`, start (100, 0),
end (100, 500000000), no parent, label `service.name=checkout`. -/
def scenarioSpan : Span :=
  { SpanID := 42, Name := "handler", StartTime := ⟨100, 0⟩, EndTime := ⟨100, 500000000⟩,
    ParentSpanID := none, Labels := [("service.name", "checkout")] }

/-- Clock readings some 53 years after the scenario's timestamps: for such a
start `start.Add(time.Since(start))` is the time of the call itself. -/
def sampleClock : WallClock :=
  { now := timeUnix 1700000000 0, monotonicEndTime := fun _ => timeUnix 1700000000 5 }

/-! ## cmd/gcp-cloud-trace-otel: one fetch cycle -/

/-- What the tracing backend and the two limiters answer during one cycle. -/
structure Backend where
  listLimiter : Except String Unit
  listing : TraceIterator
  getLimiter : String → Except String Unit
  getTrace : String → Except String TraceProto

/-- The value of the loop variable `traceData` of `fetchAndProcessTraces` that
the goroutine launched in iteration `i` reads while the loop is in iteration
`loopAt` (an index past the end stands for a loop that has finished).  With
one variable per iteration it is `traces[i]`; with one variable per loop it is
what the loop assigned last, the trace of the iteration it has reached. -/
def traceDataSeen (lv : LoopVar) (traces : List Trace) (i loopAt : Nat) (td : Trace) : Trace :=
  match lv with
  | .perIteration => traces.getD i td
  | .perLoop => traces.getD (min (max i loopAt) (traces.length - 1)) td

/-- One call of the Span Converter: the trace and the span it is given. -/
structure ConverterCall where
  gctTrace : Trace
  gctSpan : Span
deriving DecidableEq, Repr

/-- The goroutine `fetchAndProcessTraces` launches in iteration `i` with
argument `td`: it fetches the root spans of `td.TraceID` and calls
`ConvertToOTLPSpan(ctx, traceData, span)` for each; an error is logged and
ends the task.  `loopAt` says how far the launching loop has come when the
goroutine reads `traceData`.  The result lists the converter calls; `none` is
a panic in the goroutine, which ends the process. -/
def traceTask (lv : LoopVar) (backend : Backend) (traces : List Trace)
    (loopAt : Nat) (i : Nat) (td : Trace) : Option (List ConverterCall) :=
  match GetRootSpans lv (backend.getLimiter td.TraceID) (backend.getTrace td.TraceID) with
  | none => none
  | some (.error _) => some []
  | some (.ok rootSpans) =>
    some (rootSpans.values.map (fun span =>
      { gctTrace := traceDataSeen lv traces i loopAt td, gctSpan := span }))

/-- What one cycle does: the error it logs, if any, and for every per-trace
task it launches the converter calls of that task (`none` for a task that
panics). -/
structure CycleResult where
  loggedError : Option String
  tasks : List (Option (List ConverterCall))
deriving DecidableEq, Repr

/-- The `range` loop of `fetchAndProcessTraces` from iteration `i` on. -/
def launchTasks (lv : LoopVar) (backend : Backend) (traces : List Trace)
    (sched : Nat → Nat) : Nat → List Trace → List (Option (List ConverterCall))
  | _, [] => []
  | i, td :: rest =>
    traceTask lv backend traces (sched i) i td :: launchTasks lv backend traces sched (i + 1) rest

/-- Go `fetchAndProcessTraces`.  `sched i` is the iteration the launching loop
has reached when the task of iteration `i` reads `traceData`.  `none` is a
panic inside `FetchTraces`. -/
def fetchAndProcessTraces (lv : LoopVar) (backend : Backend) (sched : Nat → Nat) :
    Option CycleResult :=
  match FetchTraces backend.listLimiter backend.listing with
  | none => none
  | some (.error err) =>
    some { loggedError := some ("Error fetching traces: " ++ err), tasks := [] }
  | some (.ok traces) =>
    some { loggedError := none, tasks := launchTasks lv backend traces sched 0 traces }

/-! ## cmd/gcp-cloud-trace-otel: the scheduler of `main` -/

/-- Where `main` stands: before the signal; inside `wg.Wait()` (after
`cancel()` and `close(stop)`); between the return of `wg.Wait()` and the last
log line; after `Service stopped.`. -/
inductive MainPhase where
  | serving
  | waiting
  | waitReturned
  | stopped
deriving DecidableEq, Repr

/-- Where a `fetchAndProcessTraces` goroutine stands: inside `FetchTraces`; in
its `range` loop with `left` traces not yet handed to a task; returned. -/
inductive CyclePhase where
  | fetching
  | launching (left : Nat)
  | returned
deriving DecidableEq, Repr

/-- The state of the process: `main`, the ticker goroutine, the cycle
goroutines, the counter of the `sync.WaitGroup`, and the per-trace tasks
launched and completed so far. -/
structure Sched where
  main : MainPhase
  tickerLoop : Bool
  cycles : List CyclePhase
  wg : Int
  launched : Nat
  completed : Nat
deriving DecidableEq, Repr

/-- The per-trace tasks that have been launched and have not completed. -/
def Sched.inFlight (s : Sched) : Nat := s.launched - s.completed

/-- The steps of the goroutines.
* `tick`: the ticker goroutine receives from `ticker.C` and starts a cycle;
* `tickerSeesStop`: it receives from the closed `stop` and returns;
* `fetchReturns c n`: `FetchTraces` returns `n` traces to cycle `c` (an error
  is `n = 0`: the cycle returns without a task);
* `launch c`: cycle `c` runs `wg.Add(1)` and the `go` statement;
* `cycleReturns c`: the loop of cycle `c` is over;
* `taskDone`: a per-trace task returns, running its deferred `wg.Done()`;
* `signal`: `main` receives the signal, runs `cancel()` and `close(stop)` and
  enters `wg.Wait()`;
* `waitReturns`: `wg.Wait()` returns, the counter being zero;
* `logStopped`: `main` logs `Service stopped.` -/
inductive Event where
  | tick
  | tickerSeesStop
  | fetchReturns (c n : Nat)
  | launch (c : Nat)
  | cycleReturns (c : Nat)
  | taskDone
  | signal
  | waitReturns
  | logStopped
deriving DecidableEq, Repr

/-- The state at the start of `main`, after `go fetchAndProcessTraces(...)`
and the start of the ticker goroutine. -/
def Sched.init : Sched :=
  { main := .serving, tickerLoop := true, cycles := [.fetching], wg := 0,
    launched := 0, completed := 0 }

/-- One step of the process; `none` when the event cannot happen in the
state.  Once `main` has logged `Service stopped.` it returns and the process
is over. -/
def Sched.step (s : Sched) (e : Event) : Option Sched :=
  if s.main = .stopped then none
  else
    match e with
    | .tick =>
      if s.tickerLoop then some { s with cycles := s.cycles ++ [.fetching] } else none
    | .tickerSeesStop =>
      if s.tickerLoop ∧ s.main ≠ .serving then some { s with tickerLoop := false } else none
    | .fetchReturns c n =>
      match s.cycles[c]? with
      | some .fetching => some { s with cycles := s.cycles.set c (.launching n) }
      | _ => none
    | .launch c =>
      match s.cycles[c]? with
      | some (.launching (left + 1)) =>
        some { s with cycles := s.cycles.set c (.launching left), wg := s.wg + 1,
                      launched := s.launched + 1 }
      | _ => none
    | .cycleReturns c =>
      match s.cycles[c]? with
      | some (.launching 0) => some { s with cycles := s.cycles.set c .returned }
      | _ => none
    | .taskDone =>
      if s.completed < s.launched then
        some { s with wg := s.wg - 1, completed := s.completed + 1 }
      else none
    | .signal =>
      if s.main = .serving then some { s with main := .waiting } else none
    | .waitReturns =>
      if s.main = .waiting ∧ s.wg = 0 then some { s with main := .waitReturned } else none
    | .logStopped =>
      if s.main = .waitReturned then some { s with main := .stopped } else none

/-- The state after a sequence of steps, when each can happen in turn. -/
def Sched.run (s : Sched) : List Event → Option Sched
  | [] => some s
  | e :: es =>
    match s.step e with
    | some s' => Sched.run s' es
    | none => none

/-- A state some execution of `main` reaches. -/
def Sched.Reachable (s : Sched) : Prop := ∃ es, Sched.init.run es = some s

/-! ## Concrete inputs and auxiliary definitions of the proofs -/

/-- An enumeration whose very first `Next` call fails with a backend error. -/
def firstCallFails : TraceIterator :=
  { items := [], final := .backendError "unavailable" }

/-- A trace of two records: a root span and its child. -/
def rootThenChild : TraceProto :=
  { ProjectId := "proj-1", TraceId := "00000000000000000000000000abc123",
    Spans := [sampleRecord 1 0 "root", sampleRecord 2 1 "child"] }

/-- A trace of two root records. -/
def twoRoots : TraceProto :=
  { ProjectId := "proj-1", TraceId := "00000000000000000000000000abc123",
    Spans := [sampleRecord 1 0 "first", sampleRecord 3 0 "second"] }

/-- An identifier the generator of the SDK may hand out. -/
def sampleSpanID : List Nat := [1, 2, 3, 4, 5, 6, 7, 8]

/-- The trace of the scenario: project `proj-1`, TraceID `abc123`. -/
def scenarioTrace : Trace :=
  { ProjectID := "proj-1", TraceID := "abc123", Spans := [scenarioSpan] }

/-- The scenario's trace under a TraceID of 32 hexadecimal digits. -/
def scenarioTrace32 : Trace :=
  { ProjectID := "proj-1", TraceID := "00000000000000000000000000abc123", Spans := [scenarioSpan] }

/-- A root span whose only label is `g.co/gae/app/module=billing`. -/
def billingSpan : Span :=
  { SpanID := 42, Name := "handler", StartTime := ⟨100, 0⟩, EndTime := ⟨100, 500000000⟩,
    ParentSpanID := none, Labels := [("g.co/gae/app/module", "billing")] }

/-- A span object that has started and not ended. -/
def recordingSample : SdkSpan :=
  tracerStart sampleClock sampleSpanID
    { TraceID := [0, 0, 0, 0, 0, 0, 0, 0, 0, 0, 0, 0, 0, 171, 193, 35],
      SpanID := [0, 0, 0, 0, 0, 0, 0, 42], TraceFlags := FlagsSampled, Remote := true }
    "handler" (timeUnix 100 0)

/-- The timestamps `time.Unix` takes over exactly: the seconds, once the whole
seconds of `Nanos` are carried over, fit `int64`; and the instant is not the
zero `time.Time`, which the SDK takes for "no timestamp given". -/
def exactTime (ts : TimeStamp) : Prop :=
  isInt64 (ts.Seconds + ts.Nanos / 1000000000) ∧
  ts.Seconds * 1000000000 + ts.Nanos ≠ -unixToInternal * 1000000000

instance (ts : TimeStamp) : Decidable (exactTime ts) := by unfold exactTime; infer_instance

/-- A span that starts at the largest `int64` second with one whole second in
its nanoseconds. -/
def carryOverflowSpan : Span :=
  { scenarioSpan with StartTime := ⟨2 ^ 63 - 1, 1000000000⟩,
                      EndTime := ⟨2 ^ 63 - 1, 1500000000⟩ }

/-- A span that starts at January 1 of year 1, 00:00:00 UTC. -/
def yearOneSpan : Span :=
  { scenarioSpan with StartTime := ⟨-62135596800, 0⟩ }

/-- Clock readings one second later than those of `sampleClock`. -/
def laterClock : WallClock :=
  { now := timeUnix 1700000001 0, monotonicEndTime := fun _ => timeUnix 1700000001 5 }

/-- A span whose nanoseconds lie outside [0, 10^9): it starts one nanosecond
before second 100 and ends 2.5 s after second 100. -/
def negativeNanosSpan : Span :=
  { scenarioSpan with StartTime := ⟨100, -1⟩, EndTime := ⟨100, 2500000000⟩ }

/-- A backend trace with one root span, SpanID 1. -/
def traceA : TraceProto :=
  { ProjectId := "proj-1", TraceId := "0000000000000000000000000000000a",
    Spans := [sampleRecord 1 0 "a-root"] }

/-- A backend trace with one root span, SpanID 2. -/
def traceB : TraceProto :=
  { ProjectId := "proj-1", TraceId := "0000000000000000000000000000000b",
    Spans := [sampleRecord 2 0 "b-root"] }

/-- A backend that lists `traceA` then `traceB` and returns each by its id. -/
def twoTraceBackend : Backend :=
  { listLimiter := .ok ()
    listing := { items := [traceA, traceB], final := .done }
    getLimiter := fun _ => .ok ()
    getTrace := fun id =>
      if id = traceA.TraceId then .ok traceA
      else if id = traceB.TraceId then .ok traceB
      else .error "not found" }

/-- The converter calls of a task that handles `td` as the cycle intends:
every root span of `td.TraceID` is converted under `td`. -/
def intendedCalls (lv : LoopVar) (backend : Backend) (td : Trace) :
    Option (List ConverterCall) :=
  match GetRootSpans lv (backend.getLimiter td.TraceID) (backend.getTrace td.TraceID) with
  | none => none
  | some (.error _) => some []
  | some (.ok rootSpans) =>
    some (rootSpans.values.map (fun span => { gctTrace := td, gctSpan := span }))

/-- What the counter of the `WaitGroup` stands for: the tasks launched and not
yet completed. -/
def Sched.Inv (s : Sched) : Prop :=
  s.wg = (s.launched : Int) - (s.completed : Int) ∧ s.completed ≤ s.launched

instance (s : Sched) : Decidable s.Inv := by unfold Sched.Inv; infer_instance

/-- An execution in which the first cycle has fetched 3 traces when the signal
arrives and has not yet launched a task: `wg.Wait()` returns at once, the
cycle launches its 3 tasks, `main` logs `Service stopped.` -/
def lateLaunch : List Event :=
  [.fetchReturns 0 3, .signal, .waitReturns, .launch 0, .launch 0, .launch 0, .logStopped]

/-- An execution in which 3 tasks are in flight when the signal arrives. -/
def threeInFlight : List Event :=
  [.fetchReturns 0 3, .launch 0, .launch 0, .launch 0, .cycleReturns 0, .signal]

/-- The `w` lowest hexadecimal digits of `n`, most significant first. -/
def hexFixed : Nat → Nat → List Char
  | 0, _ => []
  | w + 1, n => hexFixed w (n / 16) ++ [Nat.digitChar (n % 16)]

/-- The `k` lowest bytes of `n`, most significant first. -/
def bytesFixed : Nat → Nat → List Nat
  | 0, _ => []
  | k + 1, n => bytesFixed k (n / 256) ++ [n % 256]

/-- An environment that sets `PROJECT_ID` only. -/
def sampleEnv : Env := fun key => if key = "PROJECT_ID" then some "proj-1" else none

/-- The configuration `GetConfig` loads from `sampleEnv`. -/
def sampleConfig : Config :=
  { PollInterval := 10000000000, ProjectID := "proj-1", GetTraceRateLimit := 1,
    ListTracesRateLimit := 1, TracePageSize := 1 }

/-- The decoding of `sampleRecord id parent name`. -/
def sampleSpan (id : Nat) (parent : Option Nat) (name : String) : Span :=
  { SpanID := id, Name := name, StartTime := ⟨100, 0⟩, EndTime := ⟨100, 500000000⟩,
    ParentSpanID := parent, Labels := [] }

/-- A backend trace one of whose span records came without `start_time`. -/
def traceWithoutStart : TraceProto :=
  { ProjectId := "proj-1", TraceId := "0000000000000000000000000000000c",
    Spans := [{ SpanId := 5, Name := "no-start", StartTime := none,
                EndTime := some ⟨100, 0⟩, ParentSpanId := 0, Labels := [] }] }

/-- An enumeration that delivers `traceWithoutStart` and then fails. -/
def missingTimestampThenError : TraceIterator :=
  { items := [traceWithoutStart], final := .backendError "unavailable" }

/-- A root span with SpanID 0 under the scenario's other fields. -/
def zeroIDSpan : Span := { scenarioSpan with SpanID := 0 }

/-- The decoding of the TraceID of `scenarioTrace32`. -/
def scenarioTraceID : List Nat := [0, 0, 0, 0, 0, 0, 0, 0, 0, 0, 0, 0, 0, 171, 193, 35]

/-- An enumeration that delivers two traces and then fails. -/
def laterCallFails : TraceIterator :=
  { items := [traceA, traceB], final := .backendError "unavailable" }

/-- The decoding of `traceA`. -/
def decodedA : Trace :=
  { ProjectID := "proj-1", TraceID := "0000000000000000000000000000000a",
    Spans := [sampleSpan 1 none "a-root"] }

/-- The decoding of `traceB`. -/
def decodedB : Trace :=
  { ProjectID := "proj-1", TraceID := "0000000000000000000000000000000b",
    Spans := [sampleSpan 2 none "b-root"] }

/-! ## Properties of `GetConfig` and of the poll interval -/

theorem Getenv_eq_empty_iff (env : Env) (key : String) :
    Getenv env key = "" ↔ (env key = none ∨ env key = some "") := by
  unfold Getenv
  cases h : env key with
  | none => simp
  | some v => simp

theorem Atoi_Itoa_default : (Atoi (Itoa DefaultGetTraceRateLimit)).1 = 1 := by decide

theorem Atoi_Itoa_list_default : (Atoi (Itoa DefaultListTracesRateLimit)).1 = 1 := by decide

theorem wrap32_one : wrap32 1 = 1 := by decide

/-- C7: `GetConfig` fails exactly when `PROJECT_ID` is unset or empty; when it
succeeds `ProjectID` is the value of `PROJECT_ID`, and the get-call rate
limit, the list-call rate limit and the page size are each 1 when their
variable is unset or empty. -/
theorem GetConfig_error_iff_and_defaults (env : Env) :
    ((∃ msg, GetConfig env = .error msg) ↔
        (env "PROJECT_ID" = none ∨ env "PROJECT_ID" = some "")) ∧
    (∀ cfg, GetConfig env = .ok cfg →
      env "PROJECT_ID" = some cfg.ProjectID ∧
      ((env "GET_TRACE_RATE_LIMIT" = none ∨ env "GET_TRACE_RATE_LIMIT" = some "") →
        cfg.GetTraceRateLimit = 1) ∧
      ((env "LIST_TRACES_RATE_LIMIT" = none ∨ env "LIST_TRACES_RATE_LIMIT" = some "") →
        cfg.ListTracesRateLimit = 1) ∧
      ((env "TRACE_PAGE_SIZE" = none ∨ env "TRACE_PAGE_SIZE" = some "") →
        cfg.TracePageSize = 1)) := by
  constructor
  · rw [← Getenv_eq_empty_iff]
    unfold GetConfig
    by_cases hp : Getenv env "PROJECT_ID" = ""
    · simp [hp]
    · simp [hp]
  · intro cfg hcfg
    unfold GetConfig at hcfg
    by_cases hp : Getenv env "PROJECT_ID" = ""
    · simp [hp] at hcfg
    · simp only [hp, if_false, Except.ok.injEq] at hcfg
      subst hcfg
      refine ⟨?_, ?_, ?_, ?_⟩
      · show env "PROJECT_ID" = some (Getenv env "PROJECT_ID")
        unfold Getenv at hp ⊢
        cases h : env "PROJECT_ID" with
        | none => simp [h] at hp
        | some v => simp
      · intro h
        have h' := (Getenv_eq_empty_iff env "GET_TRACE_RATE_LIMIT").2 h
        simp only [h', if_true]
        exact Atoi_Itoa_default
      · intro h
        have h' := (Getenv_eq_empty_iff env "LIST_TRACES_RATE_LIMIT").2 h
        simp only [h', if_true]
        exact Atoi_Itoa_list_default
      · intro h
        have h' := (Getenv_eq_empty_iff env "TRACE_PAGE_SIZE").2 h
        simp only [h', if_true]
        rw [Atoi_Itoa_list_default]
        exact wrap32_one

/-- C8: whenever `GetConfig` succeeds its `PollInterval` is the loader's 10
seconds, so it is not zero, `main` does not take its 60-second fallback, and
the ticker interval is 10 seconds. -/
theorem GetConfig_PollInterval_fallback_unreachable (env : Env) :
    ∀ cfg, GetConfig env = .ok cfg →
      cfg.PollInterval = 10 * timeSecond ∧ cfg.PollInterval ≠ 0 ∧
      mainUsesFallback cfg = false ∧ mainPollInterval cfg = 10 * timeSecond ∧
      mainPollInterval cfg ≠ defaultPollInterval := by
  intro cfg hcfg
  have hpi : cfg.PollInterval = 10 * timeSecond := by
    unfold GetConfig at hcfg
    by_cases hp : Getenv env "PROJECT_ID" = ""
    · simp [hp] at hcfg
    · simp only [hp, if_false, Except.ok.injEq] at hcfg
      subst hcfg
      rfl
  have hne : cfg.PollInterval ≠ 0 := by rw [hpi]; decide
  refine ⟨hpi, hne, ?_, ?_, ?_⟩
  · simp [mainUsesFallback, hne]
  · unfold mainPollInterval; rw [if_neg hne]; exact hpi
  · unfold mainPollInterval; rw [if_neg hne, hpi]; decide

/-- C8 at an environment that sets `PROJECT_ID` only: `GetConfig` succeeds
there and the interval is 10 seconds. -/
theorem GetConfig_PollInterval_at_sampleEnv :
    GetConfig sampleEnv = .ok sampleConfig ∧
    (sampleConfig.PollInterval = 10 * timeSecond ∧ sampleConfig.PollInterval ≠ 0 ∧
      mainUsesFallback sampleConfig = false ∧ mainPollInterval sampleConfig = 10 * timeSecond ∧
      mainPollInterval sampleConfig ≠ defaultPollInterval) :=
  ⟨by decide, GetConfig_PollInterval_fallback_unreachable sampleEnv sampleConfig (by decide)⟩

/-! ## Properties of the trace source -/

/-- One turn of the loop of `FetchTraces`, in terms of `Next`: an error ends
the loop with what has been accumulated, a trace is decoded and appended and
the loop goes on with the iterator `Next` leaves. -/
theorem fetchLoop_unroll (it : TraceIterator) (acc : List Trace) :
    fetchLoop it.items it.final acc =
      match it.Next with
      | (.error _, _) => some acc
      | (.ok traceProto, rest) =>
        match traceOfProto traceProto with
        | none => none
        | some traceData => fetchLoop rest.items rest.final (acc ++ [traceData]) := by
  cases it with
  | mk items final =>
    cases items with
    | nil => rfl
    | cons t rest => rfl

theorem convertSpan_of_hasTimes (p : TraceSpan) (h : p.hasTimes = true) :
    ∃ s, convertSpan p = some s := by
  unfold TraceSpan.hasTimes at h
  unfold convertSpan
  cases hs : p.StartTime with
  | none => simp [hs] at h
  | some st =>
    cases he : p.EndTime with
    | none => simp [he] at h
    | some et => exact ⟨_, rfl⟩

theorem convertSpans_of_hasTimes (ps : List TraceSpan) (h : ∀ p ∈ ps, p.hasTimes = true) :
    ∃ spans, convertSpans ps = some spans := by
  induction ps with
  | nil => exact ⟨[], rfl⟩
  | cons p rest ih =>
    obtain ⟨s, hs⟩ := convertSpan_of_hasTimes p (h p (List.mem_cons_self _ _))
    obtain ⟨ss, hss⟩ := ih (fun q hq => h q (List.mem_cons_of_mem _ hq))
    exact ⟨s :: ss, by simp [convertSpans, hs, hss]⟩

theorem traceOfProto_of_hasTimes (t : TraceProto) (h : ∀ p ∈ t.Spans, p.hasTimes = true) :
    ∃ traceData, traceOfProto t = some traceData := by
  obtain ⟨spans, hs⟩ := convertSpans_of_hasTimes t.Spans h
  exact ⟨{ ProjectID := t.ProjectId, TraceID := t.TraceId, Spans := spans },
    by simp [traceOfProto, hs]⟩

theorem fetchLoop_of_hasTimes (items : List TraceProto) (final : IterEnd)
    (h : ∀ t ∈ items, ∀ p ∈ t.Spans, p.hasTimes = true) :
    ∀ acc : List Trace, ∃ traces,
      fetchLoop items final acc = some (acc ++ traces) ∧
      List.Forall₂ (fun t traceData => traceOfProto t = some traceData) items traces := by
  induction items with
  | nil => intro acc; exact ⟨[], by simp [fetchLoop], List.Forall₂.nil⟩
  | cons t rest ih =>
    intro acc
    obtain ⟨td, htd⟩ := traceOfProto_of_hasTimes t (h t (List.mem_cons_self _ _))
    obtain ⟨tl, htl, hrel⟩ := ih (fun q hq => h q (List.mem_cons_of_mem _ hq)) (acc ++ [td])
    refine ⟨td :: tl, ?_, List.Forall₂.cons htd hrel⟩
    simp only [fetchLoop, htd, htl, List.append_assoc, List.singleton_append]

theorem launchTasks_length (lv : LoopVar) (backend : Backend) (traces : List Trace)
    (sched : Nat → Nat) (i : Nat) (rest : List Trace) :
    (launchTasks lv backend traces sched i rest).length = rest.length := by
  induction rest generalizing i with
  | nil => rfl
  | cons td tl ih => simp [launchTasks, ih]

/-- C5 (as amended): for a backend enumeration whose span records all carry
their start and end timestamps, once the list limiter has admitted the call,
`FetchTraces` returns the decoding of every trace `Next` delivered before its
first error and never an error, whatever that error is and also when the very
first `Next` call fails (the result is then the empty list);
`fetchAndProcessTraces` logs no error and launches one task per returned
trace, so none when the first call fails. -/
theorem FetchTraces_admitted_returns_accumulated (lv : LoopVar) (it : TraceIterator)
    (getLimiter : String → Except String Unit) (getTrace : String → Except String TraceProto)
    (sched : Nat → Nat)
    (htimes : ∀ t ∈ it.items, ∀ p ∈ t.Spans, p.hasTimes = true) :
    ∃ traces tasks,
      FetchTraces (.ok ()) it = some (.ok traces) ∧
      List.Forall₂ (fun t traceData => traceOfProto t = some traceData) it.items traces ∧
      (it.items = [] → traces = []) ∧
      fetchAndProcessTraces lv ⟨.ok (), it, getLimiter, getTrace⟩ sched
        = some { loggedError := none, tasks := tasks } ∧
      tasks.length = it.items.length := by
  obtain ⟨traces, hloop, hrel⟩ := fetchLoop_of_hasTimes it.items it.final htimes []
  rw [List.nil_append] at hloop
  have hfetch : FetchTraces (.ok ()) it = some (.ok traces) := by
    simp [FetchTraces, hloop]
  refine ⟨traces, launchTasks lv ⟨.ok (), it, getLimiter, getTrace⟩ traces sched 0 traces,
    hfetch, hrel, ?_, ?_, ?_⟩
  · intro hnil
    rw [hnil] at hrel
    cases hrel
    rfl
  · simp [fetchAndProcessTraces, hfetch]
  · rw [launchTasks_length]
    exact hrel.length_eq.symm

/-- C5 at an enumeration that delivers two traces and then fails with a
backend error. -/
theorem FetchTraces_admitted_at_laterCallFails :
    (∀ t ∈ laterCallFails.items, ∀ p ∈ t.Spans, p.hasTimes = true) ∧
    ∃ traces tasks,
      FetchTraces (.ok ()) laterCallFails = some (.ok traces) ∧
      List.Forall₂ (fun t traceData => traceOfProto t = some traceData)
        laterCallFails.items traces ∧
      (laterCallFails.items = [] → traces = []) ∧
      fetchAndProcessTraces .perLoop
          ⟨.ok (), laterCallFails, fun _ => .ok (), fun _ => .error "unavailable"⟩ (fun i => i)
        = some { loggedError := none, tasks := tasks } ∧
      tasks.length = laterCallFails.items.length :=
  ⟨by decide,
   FetchTraces_admitted_returns_accumulated .perLoop laterCallFails (fun _ => .ok ())
     (fun _ => .error "unavailable") (fun i => i) (by decide)⟩

/-- C5 (counterexample): the very first `Next` call fails with a backend
error; `FetchTraces` returns the empty list and no error, and the cycle logs
nothing.  And when `Next` delivers a trace with a span record that came
without `start_time` and then fails, `FetchTraces` returns nothing at all: it
panics on the nil timestamp. -/
theorem FetchTraces_first_Next_error_is_not_an_error :
    ((firstCallFails.Next).1 = .error (.backendError "unavailable") ∧
      FetchTraces (.ok ()) firstCallFails = some (.ok []) ∧
      fetchAndProcessTraces .perLoop
          ⟨.ok (), firstCallFails, fun _ => .ok (), fun _ => .error "unavailable"⟩ (fun i => i)
        = some { loggedError := none, tasks := [] }) ∧
    ((missingTimestampThenError.Next).1 = .ok traceWithoutStart ∧
      FetchTraces (.ok ()) missingTimestampThenError = none) := by
  decide

/-- The limiter error is the one error `FetchTraces` returns; the cycle logs
it and launches no task. -/
theorem FetchTraces_limiter_error (lv : LoopVar) (err : String) (it : TraceIterator)
    (getLimiter : String → Except String Unit) (getTrace : String → Except String TraceProto)
    (sched : Nat → Nat) :
    FetchTraces (.error err) it = some (.error ("rate limit error: " ++ err)) ∧
    fetchAndProcessTraces lv ⟨.error err, it, getLimiter, getTrace⟩ sched
      = some { loggedError := some ("Error fetching traces: " ++ ("rate limit error: " ++ err)),
               tasks := [] } := by
  constructor <;> rfl

/-! ## Properties of `convertSpans` and `GetRootSpans` -/

/-- A decoded span has no parent exactly when the record's parent field is 0,
and otherwise carries that field; identifier, name, timestamps and labels are
those of the record. -/
theorem convertSpan_parent (p : TraceSpan) (s : Span) (h : convertSpan p = some s) :
    (p.ParentSpanId = 0 → s.ParentSpanID = none) ∧
    (p.ParentSpanId ≠ 0 → s.ParentSpanID = some p.ParentSpanId) ∧
    s.SpanID = p.SpanId ∧ s.Name = p.Name ∧ s.Labels = p.Labels ∧
    p.StartTime = some ⟨s.StartTime.Seconds, s.StartTime.Nanos⟩ ∧
    p.EndTime = some ⟨s.EndTime.Seconds, s.EndTime.Nanos⟩ := by
  unfold convertSpan at h
  cases hs : p.StartTime with
  | none => simp [hs] at h
  | some st =>
    cases he : p.EndTime with
    | none => simp [hs, he] at h
    | some et =>
      simp only [hs, he, Option.some.injEq] at h
      subst h
      refine ⟨?_, ?_, rfl, rfl, rfl, rfl, rfl⟩
      · intro h0; simp [h0]
      · intro h0; simp [h0]

theorem convertSpan_root_iff (p : TraceSpan) (s : Span) (h : convertSpan p = some s) :
    s.ParentSpanID = none ↔ p.ParentSpanId = 0 := by
  obtain ⟨h0, h1, _⟩ := convertSpan_parent p s h
  constructor
  · intro hn
    by_contra hne
    rw [h1 hne] at hn
    cases hn
  · exact h0

/-- Decoding commutes with keeping the root records. -/
theorem convertSpans_filter (ps : List TraceSpan) : ∀ spans : List Span,
    convertSpans ps = some spans →
    convertSpans (ps.filter (fun p => decide (p.ParentSpanId = 0)))
      = some (spans.filter (fun s => decide (s.ParentSpanID = none))) := by
  induction ps with
  | nil =>
    intro spans h
    simp only [convertSpans, Option.some.injEq] at h
    subst h
    rfl
  | cons p rest ih =>
    intro spans h
    simp only [convertSpans] at h
    cases hp : convertSpan p with
    | none => simp [hp] at h
    | some s =>
      cases hr : convertSpans rest with
      | none => simp [hp, hr] at h
      | some ss =>
        simp only [hp, hr, Option.some.injEq] at h
        subst h
        have hiff := convertSpan_root_iff p s hp
        have hrec := ih ss hr
        by_cases h0 : p.ParentSpanId = 0
        · have hs0 : s.ParentSpanID = none := hiff.2 h0
          simp only [List.filter, h0, hs0, decide_True, convertSpans, hp, hrec]
        · have hs0 : ¬ s.ParentSpanID = none := fun hn => h0 (hiff.1 hn)
          simp only [List.filter, h0, hs0, decide_False, hrec]

/-- With a variable per iteration every pointer keeps its own span. -/
theorem rootLoop_perIteration_fold (spans : List Span) (st : RootSpans)
    (h : ∀ p ∈ st.rootSpans, p < st.store.length) :
    (spans.foldl (rootLoopStep .perIteration) st).values
      = st.values ++ spans.filter (fun s => decide (s.ParentSpanID = none)) := by
  induction spans generalizing st with
  | nil => simp
  | cons x xs ih =>
    have hkeep : st.rootSpans.filterMap (fun p => (st.store ++ [x])[p]?) = st.values := by
      unfold RootSpans.values
      apply List.filterMap_congr
      intro p hp
      exact List.getElem?_append_left (h p hp)
    rw [List.foldl_cons]
    by_cases hx : x.ParentSpanID = none
    · have hstep : rootLoopStep .perIteration st x
          = { store := st.store ++ [x], rootSpans := st.rootSpans ++ [st.store.length] } := by
        simp [rootLoopStep, hx]
      rw [hstep, ih]
      · simp [RootSpans.values, List.filterMap_append, hkeep, hx] at *
      · intro p hp
        simp only [List.mem_append, List.mem_singleton] at hp
        simp only [List.length_append, List.length_singleton]
        rcases hp with hp | hp
        · have := h p hp; omega
        · omega
    · have hstep : rootLoopStep .perIteration st x
          = { store := st.store ++ [x], rootSpans := st.rootSpans } := by
        simp [rootLoopStep, hx]
      rw [hstep, ih]
      · simp [RootSpans.values, hkeep, hx] at *
      · intro p hp
        simp only [List.length_append, List.length_singleton]
        have := h p hp; omega

/-- With one variable for the whole loop every pointer is the address of that
variable, which holds the element assigned last. -/
theorem rootLoop_perLoop_fold (spans : List Span) (x : Span) (k : Nat) :
    spans.foldl (rootLoopStep .perLoop) { store := [x], rootSpans := List.replicate k 0 }
      = { store := [spans.getLast?.getD x],
          rootSpans := List.replicate
            (k + spans.countP (fun s => decide (s.ParentSpanID = none))) 0 } := by
  induction spans generalizing x k with
  | nil => simp
  | cons y ys ih =>
    rw [List.foldl_cons]
    by_cases hy : y.ParentSpanID = none
    · have hstep : rootLoopStep .perLoop { store := [x], rootSpans := List.replicate k 0 } y
          = { store := [y], rootSpans := List.replicate (k + 1) 0 } := by
        simp [rootLoopStep, hy, List.replicate_succ', List.replicate_add]
      rw [hstep, ih]
      have hl : (y :: ys).getLast?.getD x = ys.getLast?.getD y := by
        cases ys with
        | nil => simp
        | cons z zs =>
          rw [List.getLast?_cons_cons, List.getLast?_eq_getLast (z :: zs) (by simp)]
          rfl
      rw [hl, List.countP_cons_of_pos _ _ (by simpa using hy)]
      congr 2
      omega
    · have hstep : rootLoopStep .perLoop { store := [x], rootSpans := List.replicate k 0 } y
          = { store := [y], rootSpans := List.replicate k 0 } := by
        simp [rootLoopStep, hy]
      rw [hstep, ih]
      have hl : (y :: ys).getLast?.getD x = ys.getLast?.getD y := by
        cases ys with
        | nil => simp
        | cons z zs =>
          rw [List.getLast?_cons_cons, List.getLast?_eq_getLast (z :: zs) (by simp)]
          rfl
      rw [hl, List.countP_cons_of_neg _ _ (by simpa using hy)]

theorem rootLoop_perLoop_values (spans : List Span) (lastSpan : Span)
    (hlast : spans.getLast? = some lastSpan) :
    (rootLoop .perLoop spans).values
      = List.replicate (spans.countP (fun s => decide (s.ParentSpanID = none))) lastSpan := by
  cases spans with
  | nil => simp at hlast
  | cons q qs =>
    have hfirst : rootLoopStep .perLoop { store := [], rootSpans := [] } q
        = { store := [q],
            rootSpans := List.replicate (if q.ParentSpanID = none then 1 else 0) 0 } := by
      by_cases hq : q.ParentSpanID = none
      · simp [rootLoopStep, hq]
      · simp [rootLoopStep, hq]
    unfold rootLoop
    rw [List.foldl_cons, hfirst, rootLoop_perLoop_fold]
    have hl : qs.getLast?.getD q = lastSpan := by
      cases qs with
      | nil =>
        simp only [List.getLast?_singleton, Option.some.injEq] at hlast
        simp [hlast]
      | cons z zs =>
        rw [List.getLast?_cons_cons] at hlast
        simp [hlast]
    rw [hl]
    simp only [RootSpans.values]
    have hcnt : (q :: qs).countP (fun s => decide (s.ParentSpanID = none))
        = (if q.ParentSpanID = none then 1 else 0)
          + qs.countP (fun s => decide (s.ParentSpanID = none)) := by
      by_cases hq : q.ParentSpanID = none
      · rw [List.countP_cons_of_pos _ _ (by simpa using hq)]; simp [hq]; omega
      · rw [List.countP_cons_of_neg _ _ (by simpa using hq)]; simp [hq]
    rw [hcnt]
    generalize (if q.ParentSpanID = none then 1 else 0)
      + qs.countP (fun s => decide (s.ParentSpanID = none)) = n
    induction n with
    | zero => simp
    | succ m ih => simp [List.replicate_succ, ih]

/-- Under the per-iteration binding (Go 1.22 on), for records that all carry
their timestamps, the spans read through the pointers `GetRootSpans` returns
are the decoded records with `ParentSpanId = 0`, in backend order. -/
theorem GetRootSpans_perIteration_values (resp : TraceProto) (spans : List Span)
    (hdec : convertSpans resp.Spans = some spans) :
    ∃ r, GetRootSpans .perIteration (.ok ()) (.ok resp) = some (.ok r) ∧
      r.values = spans.filter (fun s => decide (s.ParentSpanID = none)) ∧
      convertSpans (resp.Spans.filter (fun p => decide (p.ParentSpanId = 0)))
        = some r.values := by
  have hv : (rootLoop .perIteration spans).values
      = spans.filter (fun s => decide (s.ParentSpanID = none)) := by
    unfold rootLoop
    rw [rootLoop_perIteration_fold _ _ (by simp)]
    simp [RootSpans.values]
  refine ⟨rootLoop .perIteration spans, ?_, hv, ?_⟩
  · simp [GetRootSpans, traceOfProto, hdec]
  · rw [hv]
    exact convertSpans_filter resp.Spans spans hdec

/-- Under the per-loop binding (up to Go 1.21) the pointers `GetRootSpans`
returns all refer to the loop variable: read through them, every returned
span is the LAST decoded record of the trace, once for each root record. -/
theorem GetRootSpans_perLoop_values (resp : TraceProto) (spans : List Span) (lastSpan : Span)
    (hdec : convertSpans resp.Spans = some spans)
    (hlast : spans.getLast? = some lastSpan) :
    ∃ r, GetRootSpans .perLoop (.ok ()) (.ok resp) = some (.ok r) ∧
      r.values = List.replicate
        (spans.countP (fun s => decide (s.ParentSpanID = none))) lastSpan := by
  refine ⟨rootLoop .perLoop spans, ?_, rootLoop_perLoop_values spans lastSpan hlast⟩
  simp [GetRootSpans, traceOfProto, hdec]

/-- C1 (the code at the failing input, per-loop binding): for the records
[root 1, child 2 of 1] `GetRootSpans` returns one pointer, and the span read
through it is the decoded CHILD record (SpanID 2, parent 1), not the root. -/
theorem GetRootSpans_perLoop_returns_child :
    ∃ r, GetRootSpans .perLoop (.ok ()) (.ok rootThenChild) = some (.ok r) ∧
      r.values = [sampleSpan 2 (some 1) "child"] ∧
      convertSpan (sampleRecord 2 1 "child") = some (sampleSpan 2 (some 1) "child") ∧
      convertSpan (sampleRecord 1 0 "root") = some (sampleSpan 1 none "root") ∧
      (sampleSpan 2 (some 1) "child").ParentSpanID = some 1 ∧
      (sampleSpan 2 (some 1) "child").SpanID = 2 := by
  refine ⟨_, rfl, ?_, ?_, ?_, ?_, ?_⟩ <;> decide

/-- The same records under the per-iteration binding: the one span returned
is the decoded root record. -/
theorem GetRootSpans_perIteration_returns_root :
    ∃ r, GetRootSpans .perIteration (.ok ()) (.ok rootThenChild) = some (.ok r) ∧
      r.values = [sampleSpan 1 none "root"] := by
  refine ⟨_, rfl, ?_⟩
  decide

/-- Two root records under the per-loop binding: both pointers read the
second record; the first root span is lost. -/
theorem GetRootSpans_perLoop_two_roots_alias :
    ∃ r, GetRootSpans .perLoop (.ok ()) (.ok twoRoots) = some (.ok r) ∧
      r.values = [sampleSpan 3 none "second", sampleSpan 3 none "second"] := by
  refine ⟨_, rfl, ?_⟩
  decide

/-! ## Properties of the identifier re-encoding -/

theorem hexFixed_zero (w : Nat) : hexFixed w 0 = List.replicate w '0' := by
  induction w with
  | zero => rfl
  | succ w ih =>
    simp only [hexFixed, Nat.zero_div, ih, Nat.zero_mod]
    rw [List.replicate_succ']
    rfl

theorem toDigitsCore_acc (fuel n : Nat) (ds : List Char) :
    Nat.toDigitsCore 16 fuel n ds = Nat.toDigitsCore 16 fuel n [] ++ ds := by
  induction fuel generalizing n ds with
  | zero => simp [Nat.toDigitsCore]
  | succ f ih =>
    simp only [Nat.toDigitsCore]
    by_cases h : n / 16 = 0
    · simp [h]
    · simp only [h, if_false]
      rw [ih (n / 16) (Nat.digitChar (n % 16) :: ds), ih (n / 16) [Nat.digitChar (n % 16)]]
      simp

/-- Padding the digits of `n` with zeros to a width of `w` gives the `w`
lowest digits of `n`, when `n` has at most `w` digits. -/
theorem pad_toDigitsCore (w : Nat) : ∀ n fuel : Nat, 0 < w → n < 16 ^ w → n < fuel →
    List.replicate (w - (Nat.toDigitsCore 16 fuel n []).length) '0'
        ++ Nat.toDigitsCore 16 fuel n [] = hexFixed w n := by
  induction w with
  | zero => intro n fuel hw; omega
  | succ w ih =>
    intro n fuel _ hn hfuel
    obtain ⟨f, rfl⟩ : ∃ f, fuel = f + 1 := ⟨fuel - 1, by omega⟩
    simp only [Nat.toDigitsCore, hexFixed]
    by_cases h : n / 16 = 0
    · simp only [h, if_true, List.length_singleton, Nat.add_sub_cancel, hexFixed_zero]
    · simp only [h, if_false]
      rw [toDigitsCore_acc]
      have hw : 0 < w := by
        rcases Nat.eq_zero_or_pos w with h0 | h0
        · subst h0
          have : n < 16 := by simpa using hn
          omega
        · exact h0
      have hn' : n / 16 < 16 ^ w := by
        rw [Nat.div_lt_iff_lt_mul (by norm_num)]
        rw [pow_succ] at hn
        exact hn
      have hf' : n / 16 < f := by omega
      have := ih (n / 16) f hw hn' hf'
      rw [← this]
      simp only [List.length_append, List.length_singleton, Nat.add_sub_add_right,
        List.append_assoc]

theorem sprintfHex016_data (u : Nat) (h : u < 2 ^ 64) :
    (sprintfHex016 u).data = hexFixed 16 u := by
  unfold sprintfHex016 Nat.toDigits
  exact pad_toDigitsCore 16 u (u + 1) (by norm_num) (by norm_num at h ⊢; exact h) (by omega)

theorem fromHexChar_digitChar (x : Nat) :
    fromHexChar (Nat.digitChar (x % 16)) = some (x % 16) := by
  have h : x % 16 < 16 := Nat.mod_lt _ (by norm_num)
  generalize x % 16 = d at h
  interval_cases d <;> decide

theorem isLowerHexRune_digitChar (x : Nat) :
    isLowerHexRune (Nat.digitChar (x % 16)) = true := by
  have h : x % 16 < 16 := Nat.mod_lt _ (by norm_num)
  generalize x % 16 = d at h
  interval_cases d <;> decide

theorem utf8Size_digitChar (x : Nat) : (Nat.digitChar (x % 16)).utf8Size = 1 := by
  have h : x % 16 < 16 := Nat.mod_lt _ (by norm_num)
  generalize x % 16 = d at h
  interval_cases d <;> decide

theorem hexFixed_all_lower (w n : Nat) : (hexFixed w n).all isLowerHexRune = true := by
  induction w generalizing n with
  | zero => rfl
  | succ w ih => simp [hexFixed, ih, isLowerHexRune_digitChar]

theorem hexFixed_utf8 (w n : Nat) : String.utf8ByteSize.go (hexFixed w n) = w := by
  have happ : ∀ (xs : List Char) (c : Char),
      String.utf8ByteSize.go (xs ++ [c]) = String.utf8ByteSize.go xs + c.utf8Size := by
    intro xs c
    induction xs with
    | nil => simp [String.utf8ByteSize.go]
    | cons y ys ih => simp [String.utf8ByteSize.go, ih]; omega
  induction w generalizing n with
  | zero => rfl
  | succ w ih => rw [hexFixed, happ, ih, utf8Size_digitChar]

theorem hexDecodeString_append (bs : List Nat) : ∀ (xs ys : List Char) (cs : List Nat),
    hexDecodeString xs = some bs → hexDecodeString ys = some cs →
    hexDecodeString (xs ++ ys) = some (bs ++ cs) := by
  induction bs with
  | nil =>
    intro xs ys cs hx hy
    match xs, hx with
    | [], _ => simpa using hy
    | [_], hx => simp [hexDecodeString] at hx
    | a :: b :: rest, hx =>
      simp only [hexDecodeString] at hx
      split at hx <;> simp at hx
  | cons v tl ih =>
    intro xs ys cs hx hy
    match xs, hx with
    | [], hx => simp [hexDecodeString] at hx
    | [_], hx => simp [hexDecodeString] at hx
    | a :: b :: rest, hx =>
      simp only [hexDecodeString] at hx
      split at hx
      · rename_i hi lo tl' ha hb hr
        simp only [Option.some.injEq, List.cons.injEq] at hx
        obtain ⟨hv, htl⟩ := hx
        subst htl
        have hrec := ih rest ys cs hr hy
        simp only [List.cons_append, hexDecodeString, ha, hb]
        rw [show rest.append ys = rest ++ ys from rfl, hrec]
        simp only [List.cons_append, hv]
      · simp at hx

theorem hexDecodeString_hexFixed (k : Nat) : ∀ u : Nat,
    hexDecodeString (hexFixed (2 * k) u) = some (bytesFixed k u) := by
  induction k with
  | zero => intro u; rfl
  | succ k ih =>
    intro u
    have h2 : 2 * (k + 1) = (2 * k + 1) + 1 := by ring
    rw [h2, hexFixed, hexFixed, List.append_assoc, bytesFixed]
    apply hexDecodeString_append
    · have : u / 16 / 16 = u / 256 := by omega
      rw [this]
      exact ih (u / 256)
    · simp only [List.singleton_append, hexDecodeString, fromHexChar_digitChar]
      simp only [Option.some.injEq, List.cons.injEq, and_true]
      omega

theorem bytesFixed8 (u : Nat) : bytesFixed 8 u = bigEndianBytes8 u := by
  simp only [bytesFixed, List.nil_append, List.cons_append, List.append_assoc]
  have e : bigEndianBytes8 u = [u / 256 ^ 7 % 256, u / 256 ^ 6 % 256, u / 256 ^ 5 % 256,
      u / 256 ^ 4 % 256, u / 256 ^ 3 % 256, u / 256 ^ 2 % 256, u / 256 ^ 1 % 256,
      u / 256 ^ 0 % 256] := rfl
  rw [e]
  simp only [List.singleton_append, List.cons.injEq, and_true]
  norm_num
  repeat' apply And.intro
  all_goals omega

theorem hexDecodeString_hexFixed16 (u : Nat) :
    hexDecodeString (hexFixed 16 u) = some (bigEndianBytes8 u) := by
  rw [← bytesFixed8]
  exact hexDecodeString_hexFixed 8 u

theorem bigEndianBytes8_eq (u : Nat) :
    bigEndianBytes8 u = [u / 256 ^ 7 % 256, u / 256 ^ 6 % 256, u / 256 ^ 5 % 256,
      u / 256 ^ 4 % 256, u / 256 ^ 3 % 256, u / 256 ^ 2 % 256, u / 256 ^ 1 % 256,
      u / 256 ^ 0 % 256] := rfl

theorem bigEndian_bigEndianBytes8 (u : Nat) (h : u < 2 ^ 64) :
    bigEndian (bigEndianBytes8 u) = u := by
  rw [bigEndianBytes8_eq]
  simp only [bigEndian, List.foldl]
  norm_num at h ⊢
  omega

theorem idIsValid_bigEndianBytes8 (u : Nat) (h0 : 0 < u) (h : u < 2 ^ 64) :
    idIsValid (bigEndianBytes8 u) = true := by
  by_contra hv
  have hall : ∀ b ∈ bigEndianBytes8 u, b = 0 := by
    simpa [idIsValid] using hv
  rw [bigEndianBytes8_eq] at hall
  simp only [List.mem_cons, List.mem_singleton, forall_eq_or_imp, forall_eq,
    List.not_mem_nil] at hall
  norm_num at h hall
  omega

/-- A `uint64` other than zero is re-encoded to its 8 big-endian bytes. -/
theorem SpanIDFromHex_sprintfHex016_pos (N : Nat) (h0 : 0 < N) (h : N < 2 ^ 64) :
    SpanIDFromHex (sprintfHex016 N) = .ok (bigEndianBytes8 N) := by
  have hd := sprintfHex016_data N h
  have hsize : (sprintfHex016 N).utf8ByteSize = 16 := by
    show String.utf8ByteSize.go (sprintfHex016 N).data = 16
    rw [hd, hexFixed_utf8]
  have hdec : decodeHex (sprintfHex016 N) 8 = .ok (bigEndianBytes8 N) := by
    unfold decodeHex
    rw [hd, hexFixed_all_lower, hexDecodeString_hexFixed16]
    simp [copyInto, bigEndianBytes8_eq]
  unfold SpanIDFromHex
  simp [hsize, hdec, idIsValid_bigEndianBytes8 N h0 h]

theorem SpanIDFromHex_sprintfHex016_zero :
    SpanIDFromHex (sprintfHex016 0) = .error "span-id can't be all zero" := by
  decide

/-- Zero is the only `uint64` whose re-encoding fails. -/
theorem SpanIDFromHex_sprintfHex016_ok_iff (N : Nat) (h : N < 2 ^ 64) :
    (∃ id, SpanIDFromHex (sprintfHex016 N) = .ok id) ↔ N ≠ 0 := by
  constructor
  · rintro ⟨id, hid⟩ hN
    subst hN
    rw [SpanIDFromHex_sprintfHex016_zero] at hid
    cases hid
  · intro hN
    exact ⟨_, SpanIDFromHex_sprintfHex016_pos N (Nat.pos_of_ne_zero hN) h⟩

/-! ## Properties of `time.Unix` -/

theorem wrap64_of_isInt64 (x : Int) (h : isInt64 x) : wrap64 x = x := by
  unfold isInt64 at h
  unfold wrap64 wrapSigned
  norm_num at h ⊢
  omega

theorem wrap64_add_wrap64 (a b : Int) : wrap64 (wrap64 a + b) = wrap64 (a + b) := by
  unfold wrap64 wrapSigned
  norm_num
  omega

theorem tdiv_billion (a : Int) :
    (0 ≤ a → a.tdiv 1000000000 = a / 1000000000) ∧
    (a < 0 → a.tdiv 1000000000 = -((-a) / 1000000000)) := by
  constructor
  · intro h
    exact Int.tdiv_eq_ediv h (by norm_num)
  · intro h
    have h1 := Int.neg_tdiv (-a) 1000000000
    rw [neg_neg] at h1
    rw [h1, Int.tdiv_eq_ediv (by omega) (by norm_num)]

/-- The fields of `time.Unix(sec, nsec)`: the whole seconds of `nsec` are
carried into `sec`, all in `int64`. -/
theorem timeUnix_fields (sec nsec : Int) :
    timeUnix sec nsec
      = { sec := wrap64 (sec + nsec / 1000000000 + unixToInternal),
          nsec := nsec % 1000000000 } := by
  obtain ⟨hpos, hneg⟩ := tdiv_billion nsec
  unfold timeUnix
  by_cases hr : nsec < 0 ∨ nsec ≥ 1000000000
  · simp only [hr, if_true]
    by_cases hlt : nsec - nsec.tdiv 1000000000 * 1000000000 < 0
    · simp only [hlt, if_true]
      have hn : nsec < 0 := by
        by_contra hc
        have := hpos (by omega)
        rw [this] at hlt
        omega
      have hq := hneg hn
      rw [hq] at hlt ⊢
      have e1 : wrap64 (wrap64 (wrap64 (sec + -(-nsec / 1000000000)) - 1) + unixToInternal)
          = wrap64 (sec + nsec / 1000000000 + unixToInternal) := by
        rw [wrap64_add_wrap64, sub_eq_add_neg, add_assoc (wrap64 _), wrap64_add_wrap64]
        congr 1
        omega
      rw [e1]
      congr 1
      omega
    · simp only [hlt, if_false]
      have e1 : wrap64 (wrap64 (sec + nsec.tdiv 1000000000) + unixToInternal)
          = wrap64 (sec + nsec / 1000000000 + unixToInternal) := by
        rw [wrap64_add_wrap64]
        congr 1
        rcases lt_or_le nsec 0 with hn | hn
        · have hq := hneg hn
          rw [hq] at hlt ⊢
          omega
        · rw [hpos hn]
      rw [e1]
      congr 1
      rcases lt_or_le nsec 0 with hn | hn
      · have hq := hneg hn
        rw [hq] at hlt ⊢
        omega
      · rw [hpos hn]
        omega
  · simp only [hr, if_false]
    have h0 : nsec / 1000000000 = 0 := by omega
    have h1 : nsec % 1000000000 = nsec := by omega
    rw [h0, add_zero, h1]

/-- `Unix()` and `Nanosecond()` of `time.Unix(sec, nsec)`, when the carried
seconds fit `int64`: together they give `sec * 10^9 + nsec` nanoseconds. -/
theorem timeUnix_accessors (sec nsec : Int) (h : isInt64 (sec + nsec / 1000000000)) :
    (timeUnix sec nsec).Unix = sec + nsec / 1000000000 ∧
    (timeUnix sec nsec).Nanosecond = nsec % 1000000000 ∧
    (timeUnix sec nsec).Unix * 1000000000 + (timeUnix sec nsec).Nanosecond
      = sec * 1000000000 + nsec := by
  have hu : (timeUnix sec nsec).Unix = sec + nsec / 1000000000 := by
    rw [timeUnix_fields]
    unfold Time.Unix internalToUnix
    simp only
    rw [wrap64_add_wrap64, add_neg_cancel_right]
    exact wrap64_of_isInt64 _ h
  have hn : (timeUnix sec nsec).Nanosecond = nsec % 1000000000 := by
    rw [timeUnix_fields]
    rfl
  refine ⟨hu, hn, ?_⟩
  rw [hu, hn]
  omega

theorem timeUnix_not_zero (ts : TimeStamp) (h : exactTime ts) :
    (timeUnix ts.Seconds ts.Nanos).IsZero = false := by
  obtain ⟨hr, hz⟩ := h
  rw [timeUnix_fields]
  unfold unixToInternal at hz ⊢
  unfold isInt64 at hr
  simp only [Time.IsZero, decide_eq_false_iff_not, not_and]
  intro h1 h2
  apply hz
  unfold wrap64 wrapSigned at h1
  norm_num at h1 hr
  omega

/-! ## Properties of `ConvertToOTLPSpan` -/

/-- The span `ConvertToOTLPSpan` hands to the exporter pipeline when both
identifiers convert: a child of the remote context built from the two
identifiers, with an identifier of its own from the generator, with the
timestamps of the source span (the clocks standing in for a zero timestamp)
and without attributes. -/
theorem ConvertToOTLPSpan_emitted (clock : WallClock) (newSpanID : List Nat)
    (gctTrace : Trace) (gctSpan : Span) (traceID spanID : List Nat)
    (htid : TraceIDFromHex gctTrace.TraceID = .ok traceID)
    (hsid : SpanIDFromHex (sprintfHex016 gctSpan.SpanID) = .ok spanID) :
    (ConvertToOTLPSpan clock newSpanID gctTrace gctSpan).emitted =
      [{ parent :=
           { TraceID := traceID, SpanID := spanID, TraceFlags := FlagsSampled, Remote := true }
         TraceID := traceID
         SpanID := newSpanID
         name := gctSpan.Name
         startTime :=
           if (timeUnix gctSpan.StartTime.Seconds gctSpan.StartTime.Nanos).IsZero
           then clock.now else timeUnix gctSpan.StartTime.Seconds gctSpan.StartTime.Nanos
         endTime :=
           if (timeUnix gctSpan.EndTime.Seconds gctSpan.EndTime.Nanos).IsZero
           then clock.monotonicEndTime
             (if (timeUnix gctSpan.StartTime.Seconds gctSpan.StartTime.Nanos).IsZero
              then clock.now else timeUnix gctSpan.StartTime.Seconds gctSpan.StartTime.Nanos)
           else timeUnix gctSpan.EndTime.Seconds gctSpan.EndTime.Nanos
         attributes := [] }] := by
  unfold ConvertToOTLPSpan
  simp only [htid, hsid]
  simp [ConvertOutcome.emitted, SdkSpan.End, SdkSpan.IsRecording, tracerStart, Time.IsZero]

/-- A SpanID that does not convert ends the call with the error of
`SpanIDFromHex`, or with that of `TraceIDFromHex` when the TraceID does not
convert either; no span is emitted. -/
theorem ConvertToOTLPSpan_spanID_error (clock : WallClock) (newSpanID : List Nat)
    (gctTrace : Trace) (gctSpan : Span) (err : String)
    (hsid : SpanIDFromHex (sprintfHex016 gctSpan.SpanID) = .error err) :
    (ConvertToOTLPSpan clock newSpanID gctTrace gctSpan).emitted = [] ∧
    ((∃ terr, ConvertToOTLPSpan clock newSpanID gctTrace gctSpan = .traceIDError terr) ∨
      ConvertToOTLPSpan clock newSpanID gctTrace gctSpan = .spanIDError err) := by
  unfold ConvertToOTLPSpan
  cases htid : TraceIDFromHex gctTrace.TraceID with
  | error terr => simp [ConvertOutcome.emitted]
  | ok traceID => simp [hsid, ConvertOutcome.emitted]

/-- No span is emitted when an identifier does not convert. -/
theorem ConvertToOTLPSpan_traceID_error (clock : WallClock) (newSpanID : List Nat)
    (gctTrace : Trace) (gctSpan : Span) (err : String)
    (htid : TraceIDFromHex gctTrace.TraceID = .error err) :
    ConvertToOTLPSpan clock newSpanID gctTrace gctSpan = .traceIDError err := by
  unfold ConvertToOTLPSpan
  simp only [htid]

/-- Every span `ConvertToOTLPSpan` emits is without attributes: `End` runs
before every `SetAttributes`. -/
theorem ConvertToOTLPSpan_emitted_no_attributes (clock : WallClock) (newSpanID : List Nat)
    (gctTrace : Trace) (gctSpan : Span) :
    ∀ e ∈ (ConvertToOTLPSpan clock newSpanID gctTrace gctSpan).emitted, e.attributes = [] := by
  intro e he
  cases htid : TraceIDFromHex gctTrace.TraceID with
  | error err =>
    rw [ConvertToOTLPSpan_traceID_error _ _ _ _ _ htid] at he
    simp [ConvertOutcome.emitted] at he
  | ok traceID =>
    cases hsid : SpanIDFromHex (sprintfHex016 gctSpan.SpanID) with
    | error err =>
      unfold ConvertToOTLPSpan at he
      simp [htid, hsid, ConvertOutcome.emitted] at he
    | ok spanID =>
      rw [ConvertToOTLPSpan_emitted _ _ _ _ _ _ htid hsid] at he
      simp only [List.mem_singleton] at he
      rw [he]

theorem lookup_filter_append (key value : String) (attrs : List (String × String)) :
    (attrs.filter (fun kv => !decide (kv.1 = key)) ++ [(key, value)]).lookup key
      = some value := by
  induction attrs with
  | nil => simp [List.lookup]
  | cons kv rest ih =>
    by_cases h : kv.1 = key
    · simp [List.filter, h, ih]
    · have hne : (key == kv.1) = false := by
        simp only [beq_eq_false_iff_ne, ne_eq]
        exact fun hk => h hk.symm
      simp only [List.filter, h, decide_False, Bool.not_false, List.cons_append]
      rw [show kv = (kv.1, kv.2) from rfl, List.lookup_cons, hne]
      exact ih

/-- On a span object that is still recording, the chain sets `service.name`
to the first label present among `service.name`, `g.co/gae/app/module` and
`g.co/r/generic_task/job`, and leaves the attributes alone when none is. -/
theorem setServiceName_recording (span : SdkSpan) (labels : List (String × String))
    (hrec : span.IsRecording = true) :
    (∀ v, ((labels.lookup "service.name" <|> labels.lookup "g.co/gae/app/module")
            <|> labels.lookup "g.co/r/generic_task/job") = some v →
        (setServiceName span labels).attributes.lookup "service.name" = some v) ∧
    (((labels.lookup "service.name" <|> labels.lookup "g.co/gae/app/module")
            <|> labels.lookup "g.co/r/generic_task/job") = none →
        setServiceName span labels = span) := by
  unfold setServiceName
  cases h1 : labels.lookup "service.name" with
  | some v1 =>
    simp [SdkSpan.SetAttributes, hrec, lookup_filter_append]
  | none =>
    cases h2 : labels.lookup "g.co/gae/app/module" with
    | some v2 => simp [SdkSpan.SetAttributes, hrec, lookup_filter_append]
    | none =>
      cases h3 : labels.lookup "g.co/r/generic_task/job" with
      | some v3 => simp [SdkSpan.SetAttributes, hrec, lookup_filter_append]
      | none => simp

/-- On a span object that has ended the chain changes nothing. -/
theorem setServiceName_ended (span : SdkSpan) (labels : List (String × String))
    (hrec : span.IsRecording = false) : setServiceName span labels = span := by
  unfold setServiceName
  cases labels.lookup "service.name" <;> cases labels.lookup "g.co/gae/app/module" <;>
    cases labels.lookup "g.co/r/generic_task/job" <;> simp [SdkSpan.SetAttributes, hrec]

/-- C3 (the code at the failing input): a span whose only label is
`g.co/gae/app/module=billing`, under a trace whose identifier converts, is
emitted WITHOUT a `service.name` attribute, and the span object has none when
the function returns; the same chain on a span that has not ended would set
`service.name` to `billing`. -/
theorem ConvertToOTLPSpan_billing_emitted_without_service_name :
    (∃ e final, ConvertToOTLPSpan sampleClock sampleSpanID scenarioTrace32 billingSpan
        = .converted [e] final ∧
      e.attributes.lookup "service.name" = none ∧ e.attributes = [] ∧
      final.attributes = []) ∧
    (setServiceName recordingSample billingSpan.Labels).attributes.lookup "service.name"
      = some "billing" := by
  refine ⟨⟨_, _, rfl, ?_, ?_, ?_⟩, ?_⟩ <;> decide

/-- C4 (counterexample): converting the scenario's trace, TraceID `abc123`,
with its root span emits no span: `TraceIDFromHex` rejects the identifier.
And under a TraceID of 32 digits, where a span is emitted, its span id is the
one the SDK generates, not the decoding of hex `000000000000002a`, which is
the span id of the remote context the span is started under. -/
theorem ConvertToOTLPSpan_scenario_as_stated_fails :
    (ConvertToOTLPSpan sampleClock sampleSpanID scenarioTrace scenarioSpan
        = .traceIDError "hex encoded trace-id must have length equals to 32" ∧
      (ConvertToOTLPSpan sampleClock sampleSpanID scenarioTrace scenarioSpan).emitted = []) ∧
    (∃ e, (ConvertToOTLPSpan sampleClock sampleSpanID scenarioTrace32 scenarioSpan).emitted
        = [e] ∧
      SpanIDFromHex "000000000000002a" = .ok [0, 0, 0, 0, 0, 0, 0, 42] ∧
      e.SpanID = sampleSpanID ∧ e.SpanID ≠ [0, 0, 0, 0, 0, 0, 0, 42] ∧
      e.parent.SpanID = [0, 0, 0, 0, 0, 0, 0, 42]) := by
  refine ⟨by decide, ⟨_, rfl, ?_, ?_, ?_, ?_⟩⟩ <;> decide

/-- C4 (as amended): with a TraceID that `TraceIDFromHex` accepts in the place
of `abc123`, converting the scenario's root span emits exactly one span: its
trace id is the decoding of the TraceID, it is started under the remote
context whose span id is the decoding of hex `000000000000002a` while its own
span id is the one the SDK generates, it starts at second 100 and lasts
0.5 s, and it has no parent attribute. -/
theorem ConvertToOTLPSpan_scenario (clock : WallClock) (newSpanID : List Nat)
    (traceID : String) (tid : List Nat) (htid : TraceIDFromHex traceID = .ok tid) :
    ∃ e, (ConvertToOTLPSpan clock newSpanID
            { ProjectID := "proj-1", TraceID := traceID, Spans := [scenarioSpan] }
            scenarioSpan).emitted = [e] ∧
      e.TraceID = tid ∧ e.parent.TraceID = tid ∧
      sprintfHex016 scenarioSpan.SpanID = "000000000000002a" ∧
      SpanIDFromHex "000000000000002a" = .ok e.parent.SpanID ∧
      e.parent.SpanID = [0, 0, 0, 0, 0, 0, 0, 42] ∧
      e.parent.TraceFlags = FlagsSampled ∧ e.parent.Remote = true ∧
      e.SpanID = newSpanID ∧
      e.name = "handler" ∧
      e.startTime.Unix = 100 ∧ e.startTime.Nanosecond = 0 ∧
      (e.endTime.Unix * 1000000000 + e.endTime.Nanosecond)
        - (e.startTime.Unix * 1000000000 + e.startTime.Nanosecond) = 500000000 ∧
      e.attributes.lookup "gct.parentSpanId" = none := by
  have hsid : SpanIDFromHex (sprintfHex016 scenarioSpan.SpanID)
      = .ok [0, 0, 0, 0, 0, 0, 0, 42] := by decide
  have h1 : (timeUnix scenarioSpan.StartTime.Seconds scenarioSpan.StartTime.Nanos).IsZero
      = false := by decide
  have h2 : (timeUnix scenarioSpan.EndTime.Seconds scenarioSpan.EndTime.Nanos).IsZero
      = false := by decide
  refine ⟨_, ConvertToOTLPSpan_emitted clock newSpanID _ scenarioSpan tid _ htid hsid, ?_⟩
  refine ⟨rfl, rfl, by decide, ?_, rfl, rfl, rfl, rfl, rfl, ?_, ?_, ?_, rfl⟩
  · show SpanIDFromHex "000000000000002a" = .ok [0, 0, 0, 0, 0, 0, 0, 42]
    decide
  · simp only [h1, Bool.false_eq_true, if_false]
    decide
  · simp only [h1, Bool.false_eq_true, if_false]
    decide
  · simp only [h1, h2, Bool.false_eq_true, if_false]
    decide

/-- C4 at the TraceID `abc123` padded with zeros to 32 digits. -/
theorem ConvertToOTLPSpan_scenario_at_32_digits :
    TraceIDFromHex "00000000000000000000000000abc123" = .ok scenarioTraceID ∧
    ∃ e, (ConvertToOTLPSpan sampleClock sampleSpanID
            { ProjectID := "proj-1", TraceID := "00000000000000000000000000abc123",
              Spans := [scenarioSpan] }
            scenarioSpan).emitted = [e] ∧
      e.TraceID = scenarioTraceID ∧ e.parent.TraceID = scenarioTraceID ∧
      sprintfHex016 scenarioSpan.SpanID = "000000000000002a" ∧
      SpanIDFromHex "000000000000002a" = .ok e.parent.SpanID ∧
      e.parent.SpanID = [0, 0, 0, 0, 0, 0, 0, 42] ∧
      e.parent.TraceFlags = FlagsSampled ∧ e.parent.Remote = true ∧
      e.SpanID = sampleSpanID ∧
      e.name = "handler" ∧
      e.startTime.Unix = 100 ∧ e.startTime.Nanosecond = 0 ∧
      (e.endTime.Unix * 1000000000 + e.endTime.Nanosecond)
        - (e.startTime.Unix * 1000000000 + e.startTime.Nanosecond) = 500000000 ∧
      e.attributes.lookup "gct.parentSpanId" = none :=
  ⟨by decide,
   ConvertToOTLPSpan_scenario sampleClock sampleSpanID "00000000000000000000000000abc123"
     scenarioTraceID (by decide)⟩

/-- C2 (as amended): for every `N` with `0 < N < 2^64`, formatting `N` with
`%016x` and decoding the text with `SpanIDFromHex` succeeds and yields the 8
big-endian bytes of `N`, which read back as `N`; for `N = 0` the decoding
fails, the all-zero identifier being rejected, and `ConvertToOTLPSpan` on a
span with that identifier ends with an identifier error and emits nothing. -/
theorem SpanIDFromHex_sprintfHex016_roundtrip (N : Nat) (h : N < 2 ^ 64) :
    (0 < N →
      SpanIDFromHex (sprintfHex016 N) = .ok (bigEndianBytes8 N) ∧
      bigEndian (bigEndianBytes8 N) = N) ∧
    (N = 0 →
      SpanIDFromHex (sprintfHex016 N) = .error "span-id can't be all zero" ∧
      ∀ (clock : WallClock) (newSpanID : List Nat) (gctTrace : Trace) (gctSpan : Span),
        gctSpan.SpanID = N →
        (ConvertToOTLPSpan clock newSpanID gctTrace gctSpan).emitted = [] ∧
        ((∃ terr, ConvertToOTLPSpan clock newSpanID gctTrace gctSpan = .traceIDError terr) ∨
          ConvertToOTLPSpan clock newSpanID gctTrace gctSpan
            = .spanIDError "span-id can't be all zero")) := by
  constructor
  · intro h0
    exact ⟨SpanIDFromHex_sprintfHex016_pos N h0 h, bigEndian_bigEndianBytes8 N h⟩
  · intro h0
    subst h0
    refine ⟨SpanIDFromHex_sprintfHex016_zero, ?_⟩
    intro clock newSpanID gctTrace gctSpan hid
    apply ConvertToOTLPSpan_spanID_error
    rw [hid]
    exact SpanIDFromHex_sprintfHex016_zero

/-- C2 at `N = 42`, the identifier of the scenario, and at `N = 0`. -/
theorem SpanIDFromHex_sprintfHex016_roundtrip_at_42 :
    ((42 < 2 ^ 64 ∧ 0 < 42) ∧
      SpanIDFromHex (sprintfHex016 42) = .ok (bigEndianBytes8 42) ∧
      bigEndian (bigEndianBytes8 42) = 42) ∧
    (zeroIDSpan.SpanID = 0 ∧
      SpanIDFromHex (sprintfHex016 0) = .error "span-id can't be all zero" ∧
      (ConvertToOTLPSpan sampleClock sampleSpanID scenarioTrace32 zeroIDSpan).emitted = []) :=
  ⟨⟨by decide, (SpanIDFromHex_sprintfHex016_roundtrip 42 (by decide)).1 (by decide)⟩,
   rfl, ((SpanIDFromHex_sprintfHex016_roundtrip 0 (by decide)).2 rfl).1,
   (((SpanIDFromHex_sprintfHex016_roundtrip 0 (by decide)).2 rfl).2
      sampleClock sampleSpanID scenarioTrace32 zeroIDSpan rfl).1⟩

/-- C2 (counterexample): `N = 0` is formatted as sixteen zeros, and
`SpanIDFromHex` rejects the all-zero identifier: the conversion does not
succeed for every `N` in `[0, 2^64-1]`. -/
theorem SpanIDFromHex_sprintfHex016_zero_fails :
    sprintfHex016 0 = "0000000000000000" ∧
    SpanIDFromHex (sprintfHex016 0) = .error "span-id can't be all zero" ∧
    (¬ ∃ id, SpanIDFromHex (sprintfHex016 0) = .ok id) ∧
    ConvertToOTLPSpan sampleClock sampleSpanID scenarioTrace32 zeroIDSpan
      = .spanIDError "span-id can't be all zero" := by
  refine ⟨by decide, by decide, ?_, by decide⟩
  rintro ⟨id, hid⟩
  have h0 : SpanIDFromHex (sprintfHex016 0) = .error "span-id can't be all zero" := by decide
  rw [h0] at hid
  cases hid

/-- C6 (as amended): when both identifiers convert and both timestamps are
taken over exactly (`exactTime`: the seconds with the whole seconds of `Nanos`
carried over fit `int64`, and the instant is not the zero `time.Time`), the
emitted span starts `StartTime.Seconds * 10^9 + StartTime.Nanos` and ends
`EndTime.Seconds * 10^9 + EndTime.Nanos` nanoseconds after the Unix epoch, as
read through `Unix()` and `Nanosecond()`, for every value of `Nanos`,
whatever the clocks read and whatever the order of the two instants; its
duration is their difference. -/
theorem ConvertToOTLPSpan_exact_times (clock : WallClock) (newSpanID : List Nat)
    (gctTrace : Trace) (gctSpan : Span) (traceID spanID : List Nat)
    (htid : TraceIDFromHex gctTrace.TraceID = .ok traceID)
    (hsid : SpanIDFromHex (sprintfHex016 gctSpan.SpanID) = .ok spanID)
    (hstart : exactTime gctSpan.StartTime) (hend : exactTime gctSpan.EndTime) :
    ∃ e, (ConvertToOTLPSpan clock newSpanID gctTrace gctSpan).emitted = [e] ∧
      e.startTime.Unix = gctSpan.StartTime.Seconds + gctSpan.StartTime.Nanos / 1000000000 ∧
      e.startTime.Nanosecond = gctSpan.StartTime.Nanos % 1000000000 ∧
      e.startTime.Unix * 1000000000 + e.startTime.Nanosecond
        = gctSpan.StartTime.Seconds * 1000000000 + gctSpan.StartTime.Nanos ∧
      e.endTime.Unix = gctSpan.EndTime.Seconds + gctSpan.EndTime.Nanos / 1000000000 ∧
      e.endTime.Nanosecond = gctSpan.EndTime.Nanos % 1000000000 ∧
      e.endTime.Unix * 1000000000 + e.endTime.Nanosecond
        = gctSpan.EndTime.Seconds * 1000000000 + gctSpan.EndTime.Nanos ∧
      (e.endTime.Unix * 1000000000 + e.endTime.Nanosecond)
          - (e.startTime.Unix * 1000000000 + e.startTime.Nanosecond)
        = (gctSpan.EndTime.Seconds * 1000000000 + gctSpan.EndTime.Nanos)
          - (gctSpan.StartTime.Seconds * 1000000000 + gctSpan.StartTime.Nanos) ∧
      ∀ other : WallClock,
        (ConvertToOTLPSpan other newSpanID gctTrace gctSpan).emitted = [e] := by
  have hs0 := timeUnix_not_zero _ hstart
  have he0 := timeUnix_not_zero _ hend
  obtain ⟨hsU, hsN, hs⟩ := timeUnix_accessors _ _ hstart.1
  obtain ⟨heU, heN, he⟩ := timeUnix_accessors _ _ hend.1
  refine ⟨_, ConvertToOTLPSpan_emitted clock newSpanID gctTrace gctSpan _ _ htid hsid,
    ?_, ?_, ?_, ?_, ?_, ?_, ?_, ?_⟩
  · simp only [hs0, Bool.false_eq_true, if_false]; exact hsU
  · simp only [hs0, Bool.false_eq_true, if_false]; exact hsN
  · simp only [hs0, Bool.false_eq_true, if_false]; exact hs
  · simp only [he0, Bool.false_eq_true, if_false]; exact heU
  · simp only [he0, Bool.false_eq_true, if_false]; exact heN
  · simp only [he0, Bool.false_eq_true, if_false]; exact he
  · simp only [hs0, he0, Bool.false_eq_true, if_false]; rw [hs, he]
  · intro other
    rw [ConvertToOTLPSpan_emitted other newSpanID gctTrace gctSpan _ _ htid hsid]
    simp only [hs0, he0, Bool.false_eq_true, if_false]

/-- C6 at a span that starts at (100, -1) and ends at (100, 2500000000): both
nanosecond fields lie outside [0, 10^9). -/
theorem ConvertToOTLPSpan_exact_times_at_negative_nanos :
    (TraceIDFromHex scenarioTrace32.TraceID = .ok scenarioTraceID ∧
      SpanIDFromHex (sprintfHex016 negativeNanosSpan.SpanID) = .ok [0, 0, 0, 0, 0, 0, 0, 42] ∧
      exactTime negativeNanosSpan.StartTime ∧ exactTime negativeNanosSpan.EndTime) ∧
    ∃ e, (ConvertToOTLPSpan sampleClock sampleSpanID scenarioTrace32 negativeNanosSpan).emitted
        = [e] ∧
      e.startTime.Unix
        = negativeNanosSpan.StartTime.Seconds + negativeNanosSpan.StartTime.Nanos / 1000000000 ∧
      e.startTime.Nanosecond = negativeNanosSpan.StartTime.Nanos % 1000000000 ∧
      e.startTime.Unix * 1000000000 + e.startTime.Nanosecond
        = negativeNanosSpan.StartTime.Seconds * 1000000000 + negativeNanosSpan.StartTime.Nanos ∧
      e.endTime.Unix
        = negativeNanosSpan.EndTime.Seconds + negativeNanosSpan.EndTime.Nanos / 1000000000 ∧
      e.endTime.Nanosecond = negativeNanosSpan.EndTime.Nanos % 1000000000 ∧
      e.endTime.Unix * 1000000000 + e.endTime.Nanosecond
        = negativeNanosSpan.EndTime.Seconds * 1000000000 + negativeNanosSpan.EndTime.Nanos ∧
      (e.endTime.Unix * 1000000000 + e.endTime.Nanosecond)
          - (e.startTime.Unix * 1000000000 + e.startTime.Nanosecond)
        = (negativeNanosSpan.EndTime.Seconds * 1000000000 + negativeNanosSpan.EndTime.Nanos)
          - (negativeNanosSpan.StartTime.Seconds * 1000000000
              + negativeNanosSpan.StartTime.Nanos) ∧
      ∀ other : WallClock,
        (ConvertToOTLPSpan other sampleSpanID scenarioTrace32 negativeNanosSpan).emitted = [e] :=
  ⟨by decide,
   ConvertToOTLPSpan_exact_times sampleClock sampleSpanID scenarioTrace32 negativeNanosSpan
     scenarioTraceID [0, 0, 0, 0, 0, 0, 0, 42]
     (by decide) (by decide) (by decide) (by decide)⟩

/-- C6 (counterexample): at the largest `int64` second with one whole second
in `Nanos`, the carry inside `time.Unix` overflows and the emitted span's
`Unix()` is `-2^63`, not `Seconds + 1`; at January 1 of year 1 the timestamp
is the zero `time.Time`, the SDK reads its clock instead, and two clock
readings give two different spans. -/
theorem ConvertToOTLPSpan_times_not_exact :
    (∃ e, (ConvertToOTLPSpan sampleClock sampleSpanID scenarioTrace32 carryOverflowSpan).emitted
        = [e] ∧
      e.startTime.Unix = -(2 ^ 63) ∧ e.startTime.Nanosecond = 0 ∧
      e.startTime.Unix * 1000000000 + e.startTime.Nanosecond
        ≠ carryOverflowSpan.StartTime.Seconds * 1000000000
          + carryOverflowSpan.StartTime.Nanos) ∧
    (∃ e, (ConvertToOTLPSpan sampleClock sampleSpanID scenarioTrace32 yearOneSpan).emitted
        = [e] ∧ e.startTime = sampleClock.now) ∧
    (ConvertToOTLPSpan sampleClock sampleSpanID scenarioTrace32 yearOneSpan).emitted
      ≠ (ConvertToOTLPSpan laterClock sampleSpanID scenarioTrace32 yearOneSpan).emitted := by
  refine ⟨⟨_, rfl, by decide, by decide, by decide⟩, ⟨_, rfl, by decide⟩, by decide⟩

/-! ## Properties of one fetch cycle -/

theorem launchTasks_perIteration (backend : Backend) (sched : Nat → Nat) (rest : List Trace) :
    ∀ pre : List Trace,
      launchTasks .perIteration backend (pre ++ rest) sched pre.length rest
        = rest.map (intendedCalls .perIteration backend) := by
  induction rest with
  | nil => intro pre; rfl
  | cons td tl ih =>
    intro pre
    have hget : (pre ++ td :: tl).getD pre.length td = td := by
      rw [List.getD_eq_getElem?_getD, List.getElem?_append_right (le_refl _)]
      simp
    have hrec := ih (pre ++ [td])
    simp only [List.append_assoc, List.singleton_append, List.length_append,
      List.length_singleton] at hrec
    simp only [launchTasks, List.map_cons, hrec, traceTask, traceDataSeen, hget, intendedCalls]

/-- Under the per-iteration binding (Go 1.22 on) every task converts each root
span of its trace under that same trace, whatever the schedule. -/
theorem fetchAndProcessTraces_perIteration_pairs (backend : Backend) (sched : Nat → Nat)
    (traces : List Trace)
    (h : FetchTraces backend.listLimiter backend.listing = some (.ok traces)) :
    fetchAndProcessTraces .perIteration backend sched
      = some { loggedError := none,
               tasks := traces.map (intendedCalls .perIteration backend) } := by
  unfold fetchAndProcessTraces
  simp only [h]
  rw [show launchTasks .perIteration backend traces sched 0 traces
        = traces.map (intendedCalls .perIteration backend)
      from launchTasks_perIteration backend sched traces []]

theorem getD_last (traces : List Trace) (last td : Trace)
    (hlast : traces.getLast? = some last) :
    traces.getD (traces.length - 1) td = last := by
  rw [List.getD_eq_getElem?_getD, ← List.getLast?_eq_getElem?, hlast]
  rfl

theorem launchTasks_perLoop_after_loop (backend : Backend) (traces : List Trace) (last : Trace)
    (sched : Nat → Nat) (hlast : traces.getLast? = some last)
    (hs : ∀ i, traces.length - 1 ≤ sched i) (rest : List Trace) :
    ∀ i, ∀ task ∈ launchTasks .perLoop backend traces sched i rest,
      ∀ calls, task = some calls → ∀ call ∈ calls, call.gctTrace = last := by
  induction rest with
  | nil => intro i task ht; simp [launchTasks] at ht
  | cons td tl ih =>
    intro i task ht calls hcalls call hc
    simp only [launchTasks, List.mem_cons] at ht
    rcases ht with ht | ht
    · subst ht
      unfold traceTask at hcalls
      split at hcalls
      · cases hcalls
      · simp only [Option.some.injEq] at hcalls
        subst hcalls
        simp at hc
      · simp only [Option.some.injEq] at hcalls
        subst hcalls
        simp only [List.mem_map] at hc
        obtain ⟨span, _, hcall⟩ := hc
        rw [← hcall]
        simp only [traceDataSeen]
        have hidx : min (max i (sched i)) (traces.length - 1) = traces.length - 1 := by
          have := hs i
          omega
        rw [hidx]
        exact getD_last traces last td hlast
    · exact ih (i + 1) task ht calls hcalls call hc

/-- Under the per-loop binding (up to Go 1.21), when the tasks read
`traceData` after the launching loop has finished, EVERY converter call of
the cycle is made with the last trace of the list. -/
theorem fetchAndProcessTraces_perLoop_after_loop (backend : Backend) (sched : Nat → Nat)
    (traces : List Trace) (last : Trace)
    (h : FetchTraces backend.listLimiter backend.listing = some (.ok traces))
    (hlast : traces.getLast? = some last)
    (hs : ∀ i, traces.length - 1 ≤ sched i) :
    ∃ cycle, fetchAndProcessTraces .perLoop backend sched = some cycle ∧
      ∀ task ∈ cycle.tasks, ∀ calls, task = some calls →
        ∀ call ∈ calls, call.gctTrace = last := by
  refine ⟨{ loggedError := none, tasks := launchTasks .perLoop backend traces sched 0 traces },
    ?_, ?_⟩
  · unfold fetchAndProcessTraces
    simp only [h]
  · exact launchTasks_perLoop_after_loop backend traces last sched hlast hs traces 0

/-- C10 (the code at the failing input, per-loop binding): the backend lists
trace A then trace B; both tasks read `traceData` after the loop has moved on
to B.  The root span of A (SpanID 1, fetched with A's identifier) is handed to
the converter together with trace B.  A task that reads before the loop moves
on, and every task under the per-iteration binding, gets its own trace. -/
theorem fetchAndProcessTraces_perLoop_converts_under_other_trace :
    traceOfProto traceA = some decodedA ∧ traceOfProto traceB = some decodedB ∧
    convertSpan (sampleRecord 1 0 "a-root") = some (sampleSpan 1 none "a-root") ∧
    convertSpan (sampleRecord 2 0 "b-root") = some (sampleSpan 2 none "b-root") ∧
    decodedA ≠ decodedB ∧
    fetchAndProcessTraces .perLoop twoTraceBackend (fun _ => 1)
      = some { loggedError := none,
               tasks :=
                 [some [{ gctTrace := decodedB, gctSpan := sampleSpan 1 none "a-root" }],
                  some [{ gctTrace := decodedB, gctSpan := sampleSpan 2 none "b-root" }]] } ∧
    fetchAndProcessTraces .perLoop twoTraceBackend (fun i => i)
      = some { loggedError := none,
               tasks :=
                 [some [{ gctTrace := decodedA, gctSpan := sampleSpan 1 none "a-root" }],
                  some [{ gctTrace := decodedB, gctSpan := sampleSpan 2 none "b-root" }]] } ∧
    fetchAndProcessTraces .perIteration twoTraceBackend (fun _ => 1)
      = some { loggedError := none,
               tasks :=
                 [some [{ gctTrace := decodedA, gctSpan := sampleSpan 1 none "a-root" }],
                  some [{ gctTrace := decodedB, gctSpan := sampleSpan 2 none "b-root" }]] } := by
  decide

/-! ## Properties of the scheduler -/

theorem Sched.step_main_ne_stopped (s s' : Sched) (e : Event) (h : s.step e = some s') :
    s.main ≠ .stopped := by
  intro hm
  simp [Sched.step, hm] at h

theorem Sched.step_inv (s s' : Sched) (e : Event) (h : s.step e = some s') (hi : s.Inv) :
    s'.Inv := by
  have hm := Sched.step_main_ne_stopped s s' e h
  unfold Sched.Inv at hi ⊢
  obtain ⟨hwg, hle⟩ := hi
  unfold Sched.step at h
  simp only [hm, if_false] at h
  cases e with
  | tick =>
    simp only at h
    split at h
    · cases h; exact ⟨hwg, hle⟩
    · cases h
  | tickerSeesStop =>
    simp only at h
    split at h
    · cases h; exact ⟨hwg, hle⟩
    · cases h
  | fetchReturns c n =>
    simp only at h
    split at h
    · cases h; exact ⟨hwg, hle⟩
    · cases h
  | launch c =>
    simp only at h
    split at h
    · cases h
      simp only
      constructor
      · push_cast; omega
      · omega
    · cases h
  | cycleReturns c =>
    simp only at h
    split at h
    · cases h; exact ⟨hwg, hle⟩
    · cases h
  | taskDone =>
    simp only at h
    split at h
    · cases h
      simp only
      constructor
      · push_cast; omega
      · omega
    · cases h
  | signal =>
    simp only at h
    split at h
    · cases h; exact ⟨hwg, hle⟩
    · cases h
  | waitReturns =>
    simp only at h
    split at h
    · cases h; exact ⟨hwg, hle⟩
    · cases h
  | logStopped =>
    simp only at h
    split at h
    · cases h; exact ⟨hwg, hle⟩
    · cases h

theorem Sched.run_inv (es : List Event) : ∀ s s' : Sched, s.run es = some s' → s.Inv → s'.Inv := by
  induction es with
  | nil =>
    intro s s' h hi
    simp only [Sched.run, Option.some.injEq] at h
    exact h ▸ hi
  | cons e rest ih =>
    intro s s' h hi
    simp only [Sched.run] at h
    cases hstep : s.step e with
    | none => simp [hstep] at h
    | some t =>
      simp only [hstep] at h
      exact ih t s' h (Sched.step_inv s t e hstep hi)

/-- In every reachable state the counter of the `WaitGroup` is the number of
per-trace tasks in flight. -/
theorem Sched.reachable_inv (s : Sched) (h : s.Reachable) : s.Inv := by
  obtain ⟨es, hes⟩ := h
  exact Sched.run_inv es Sched.init s hes ⟨by decide, by decide⟩

/-- The part that holds: `wg.Wait()` returns only in a state in which every
per-trace task launched so far has completed, so tasks in flight when the
signal arrives are waited for. -/
theorem Sched.waitReturns_all_launched_completed (s s' : Sched) (h : s.Reachable)
    (hstep : s.step .waitReturns = some s') : s.completed = s.launched ∧ s.inFlight = 0 := by
  obtain ⟨hwg, hle⟩ := Sched.reachable_inv s h
  have hm := Sched.step_main_ne_stopped s s' _ hstep
  unfold Sched.step at hstep
  simp only [hm, if_false] at hstep
  split at hstep
  · rename_i hc
    unfold Sched.inFlight
    omega
  · cases hstep

/-- C9 (the code at the failing input): the first cycle has fetched 3 traces
and launched no task yet when the signal arrives; the counter is 0, so
`wg.Wait()` returns at once; the cycle launches its 3 tasks; `main` logs
`Service stopped.` with 3 launched tasks not completed. -/
theorem main_stops_with_launched_tasks_incomplete :
    ∃ s, Sched.init.run lateLaunch = some s ∧
      s.main = .stopped ∧ s.launched = 3 ∧ s.completed = 0 ∧ s.inFlight = 3 := by
  refine ⟨_, rfl, ?_, ?_, ?_, ?_⟩ <;> decide

/-- With 3 tasks in flight when the signal arrives `wg.Wait()` cannot return:
the step is not enabled until the tasks have run `wg.Done()`. -/
theorem main_waits_for_three_in_flight :
    ∃ s, Sched.init.run threeInFlight = some s ∧
      s.main = .waiting ∧ s.inFlight = 3 ∧
      s.step .waitReturns = none ∧
      (s.run [.taskDone, .taskDone, .waitReturns] = none) ∧
      (∃ t, s.run [.taskDone, .taskDone, .taskDone, .waitReturns, .logStopped] = some t ∧
        t.main = .stopped ∧ t.inFlight = 0) := by
  refine ⟨_, rfl, ?_, ?_, ?_, ?_, ⟨_, rfl, ?_, ?_⟩⟩ <;> decide

end GcpCloudTraceOtel
